import Mathlib

/-!
# Shallow embedding of the FAMP orchestration core

This file embeds the plugin execution engine (`famp/plugin.py`) and the
workflow engine (`famp/workflow.py`) of the FAMP repository, and proves a
family of properties about them.

Modelling conventions:
* Python JSON-like values (`Any` payloads of result/context dicts) are the
  inductive `Val` below; Python `dict`s are insertion-ordered association
  lists with Python's `d[k] = v` update semantics (`dictInsert`).
* Python `float` is modelled as `ℚ` (all delays/arithmetic in the source are
  exact decimal values, no rounding behaviour is relied upon).
* `datetime.datetime.now()` is modelled as a monotone tick counter `ℕ`
  threaded through the execution functions; the workflow data model is
  parametric in the timestamp type `τ` (the engine never inspects
  timestamps, it only stores them and serialises them).
* Exceptions are modelled with `Except`; a raised Python exception is
  `Except.error`.  Recursion over the (possibly cyclic) dependency graph is
  modelled with fuel; `Option.none` marks fuel exhaustion (which models
  non-termination / stack overflow, never a real return of the source).
* `PluginError.timestamp` (wall-clock construction time) is carried as an
  opaque string; no specification claim depends on its value.
-/

/-- Python JSON-like values: the payloads that flow through result
dictionaries, error contexts and workflow state. -/
inductive Val where
  | null : Val
  | bool (b : Bool) : Val
  | num (q : ℚ) : Val
  | str (s : String) : Val
  | list (xs : List Val) : Val
  | dict (kvs : List (String × Val)) : Val

/-- A Python `dict[str, Any]`: insertion-ordered association list. -/
abbrev PyDict := List (String × Val)

/-- Lookup in a Python dict (`d[k]` / `k in d`). -/
def dictGet (d : PyDict) (k : String) : Option Val :=
  match d with
  | [] => Option.none
  | (k₀, v₀) :: rest => if k₀ = k then some v₀ else dictGet rest k

/-- Python `d[k] = v`: replaces in place if present, else appends. -/
def dictInsert (d : PyDict) (k : String) (v : Val) : PyDict :=
  match d with
  | [] => [(k, v)]
  | (k₀, v₀) :: rest => if k₀ = k then (k, v) :: rest else (k₀, v₀) :: dictInsert rest k v

/-- Python `d1.update(d2)`. -/
def dictUpdate (d₁ d₂ : PyDict) : PyDict :=
  d₂.foldl (fun acc kv => dictInsert acc kv.1 kv.2) d₁

/-! ## Error model (`famp/plugin.py`, `ErrorCode`, `PluginError`) -/

/-- `ErrorCode` enum of `famp/plugin.py`. -/
inductive ErrorCode where
  | config | execution | dependency | initRelated | validation
  | network | timeoutKind | authentication | permission | resource
deriving DecidableEq, Repr

/-- The `.value` string of each `ErrorCode` member. -/
def ErrorCode.value : ErrorCode → String
  | .config => "CONFIG_ERROR"
  | .execution => "EXECUTION_ERROR"
  | .dependency => "DEPENDENCY_ERROR"
  | .initRelated => "INITIALIZATION_ERROR"
  | .validation => "VALIDATION_ERROR"
  | .network => "NETWORK_ERROR"
  | .timeoutKind => "TIMEOUT_ERROR"
  | .authentication => "AUTHENTICATION_ERROR"
  | .permission => "PERMISSION_ERROR"
  | .resource => "RESOURCE_ERROR"

/-- `PluginError` (base class of all plugin exceptions).  `timestamp` is the
wall-clock construction time, carried opaquely. -/
structure PluginError where
  code : ErrorCode
  message : String
  plugin_name : String
  context : PyDict := []
  timestamp : String := ""

/-- `PluginError.to_dict`. -/
def PluginError.to_dict (e : PluginError) : PyDict :=
  [("code", .str e.code.value),
   ("message", .str e.message),
   ("plugin_name", .str e.plugin_name),
   ("timestamp", .str e.timestamp),
   ("context", .dict e.context)]

/-- `PluginDependencyError(message, plugin_name, context)`. -/
def dependencyError (message plugin_name : String) (context : PyDict := []) : PluginError :=
  { code := .dependency, message := message, plugin_name := plugin_name, context := context }

/-- `PluginExecutionError(message, plugin_name, context)`. -/
def executionError (message plugin_name : String) (context : PyDict := []) : PluginError :=
  { code := .execution, message := message, plugin_name := plugin_name, context := context }

/-! ## Retry configuration (`RetryConfig`) -/

/-- `RetryConfig` pydantic model (floats as `ℚ`). -/
structure RetryConfig where
  max_attempts : ℕ := 3
  base_delay : ℚ := 1
  max_delay : ℚ := 30
  exponential_base : ℚ := 2
  retry_codes : List ErrorCode := [.network, .timeoutKind, .resource]

/-- `Plugin.is_error_retryable`: membership of the error's code in the
DEFAULT `RetryConfig().retry_codes` (the source always consults the default
set, not the supplied configuration). -/
def isErrorRetryable (e : PluginError) : Bool :=
  ({} : RetryConfig).retry_codes.contains e.code

/-! ## Plugin registry (`PluginManager`) -/

/-- `PluginDependency` dataclass. -/
structure PluginDependency where
  depname : String
  version_constraint : Option String := Option.none
  optional : Bool := false

/-- A registered plugin instance.  The body `runBody` is the plugin's
`run(tab, account)` coroutine, modelled as a function of the plugin's
current mutable `config` returning either a result dict or a raised
`PluginError`.  (Bodies are deterministic per registry; the browser tab and
account are opaque to the orchestration core.) -/
structure PluginDef where
  pname : String
  description : String := ""
  requires : List PluginDependency := []
  config : PyDict := []
  runBody : PyDict → Except PluginError PyDict

/-- `PluginManager`: the `plugin_instances` registry, keyed by registration
name. -/
structure Manager where
  plugin_instances : List (String × PluginDef)

/-- `PluginManager.get_plugin`. -/
def Manager.get_plugin (m : Manager) (name : String) : Option PluginDef :=
  match m.plugin_instances.find? (fun kv => kv.1 = name) with
  | Option.none => Option.none
  | some kv => some kv.2

/-- The `_dependency_graph` maintained by `_register_plugin`: for each
registered name, the list of its required (non-optional) dependency names. -/
def Manager.graph (m : Manager) : List (String × List String) :=
  m.plugin_instances.map
    (fun kv => (kv.1, (kv.2.requires.filter (fun d => !d.optional)).map (fun d => d.depname)))

/-- `PluginManager._validate_dependencies`: `none` means no exception. -/
def Manager.validate_dependencies (m : Manager) (name : String) : Option PluginError :=
  match m.get_plugin name with
  | Option.none => some (dependencyError ("Plugin " ++ name ++ " not found") name)
  | some plugin =>
    match plugin.requires.find?
        (fun dep => (m.get_plugin dep.depname).isNone && !dep.optional) with
    | some dep =>
        some (dependencyError
          ("Required plugin " ++ dep.depname ++ " for " ++ name ++ " not found") name
          [("missing_dependency", .str dep.depname)])
    | Option.none => Option.none

/-! ## Cycle detection (`PluginManager._detect_circular_dependencies`)

The inner `visit(node)` of the source maintains a `visited` set and a
`path` stack; on revisiting a node already on the path it raises carrying
`path[path.index(node):] + [node]`.  The graph is the required-dependency
edge map; edges out of an unregistered node are `set()` (empty).  Fuel
models the recursion depth; `Option.none` is fuel exhaustion. -/

/-- Dependency edge list of a node (`self._dependency_graph.get(node, set())`). -/
def graphDeps (g : List (String × List String)) (node : String) : List String :=
  match g.find? (fun kv => kv.1 = node) with
  | Option.none => []
  | some kv => kv.2

/-- `path.index(node)`: index of the first occurrence. -/
def idxOf (a : String) : List String → ℕ
  | [] => 0
  | b :: bs => if b = a then 0 else idxOf a bs + 1

/-- The recursion outcome of the cycle-detection walk: the final `visited`
set (most recently visited first) or the detected cycle. -/
abbrev VisitRes := Option (Except (List String) (List String))

/-- One unfolding level of the mutually recursive `visit` / dependency-loop
pair of `_detect_circular_dependencies`; `prev` is the pair one fuel level
down.  (The recursion is expressed through `Nat.rec` so that concrete runs
reduce by iota, keeping closed evaluations kernel-cheap.) -/
def visitStep (g : List (String × List String))
    (prev : (String → List String → List String → VisitRes)
          × (List String → List String → List String → VisitRes)) :
    (String → List String → List String → VisitRes)
    × (List String → List String → List String → VisitRes) :=
  (fun node visited path =>
    if node ∈ path then
      some (.error (path.drop (idxOf node path) ++ [node]))
    else if node ∈ visited then
      some (.ok visited)
    else
      prev.2 (graphDeps g node) (node :: visited) (path ++ [node]),
   fun ds visited path =>
    match ds with
    | [] => some (.ok visited)
    | d :: ds₁ =>
      match prev.1 d visited path with
      | Option.none => Option.none
      | some (.error c) => some (.error c)
      | some (.ok v) => prev.2 ds₁ v path)

/-- The `visit` / loop pair at a given fuel. -/
def visitPair (g : List (String × List String)) (fuel : ℕ) :
    (String → List String → List String → VisitRes)
    × (List String → List String → List String → VisitRes) :=
  Nat.rec (motive := fun _ => (String → List String → List String → VisitRes)
      × (List String → List String → List String → VisitRes))
    (fun _ _ _ => Option.none, fun _ _ _ => Option.none)
    (fun _ prev => visitStep g prev) fuel

/-- The inner `visit(node)` of `_detect_circular_dependencies`. -/
def visit (g : List (String × List String)) (fuel : ℕ)
    (node : String) (visited path : List String) : VisitRes :=
  (visitPair g fuel).1 node visited path

/-- The `for dep in deps: visit(dep)` loop of `visit`, threading `visited`. -/
def visitList (g : List (String × List String)) (fuel : ℕ)
    (ds visited path : List String) : VisitRes :=
  (visitPair g fuel).2 ds visited path

/-- `PluginManager._detect_circular_dependencies(name)`: `some none` means
no exception was raised; `some (some e)` is the raised
`PluginDependencyError`; `Option.none` is fuel exhaustion. -/
def Manager.detect_circular (m : Manager) (fuel : ℕ) (name : String) :
    Option (Option PluginError) :=
  match visit m.graph fuel name [] [] with
  | Option.none => Option.none
  | some (.ok _) => some Option.none
  | some (.error cycle) =>
      some (some (dependencyError
        ("Circular dependency detected: " ++ String.intercalate " -> " cycle) name
        [("dependency_cycle", .list (cycle.map .str))]))

/-! ## Retry execution (`PluginManager._retry_execution`)

The source loop runs `while attempt < max_attempts`, starting at
`attempt = 1` with the original error as `last_error`; each iteration first
sleeps `min(base_delay * exponential_base ** (attempt - 1), max_delay)`
seconds and then re-invokes the plugin body (the invocation of attempt
`attempt + 1`).  We return the outcome together with the list of slept
delays, in order.  `body k` is the plugin body's behaviour on (1-based)
attempt `k`. -/
def retryGoStep (cfg : RetryConfig) (body : ℕ → Except PluginError PyDict)
    (prev : ℕ → PluginError → Except PluginError PyDict × List ℚ)
    (attempt : ℕ) (_last_error : PluginError) :
    Except PluginError PyDict × List ℚ :=
  let delay := min (cfg.base_delay * cfg.exponential_base ^ (attempt - 1)) cfg.max_delay
  match body (attempt + 1) with
  | .ok r => (.ok r, [delay])
  | .error e =>
    if isErrorRetryable e then
      match prev (attempt + 1) e with
      | (out, delays) => (out, delay :: delays)
    else (.error e, [delay])

/-- The body of the `while attempt < max_attempts` loop of
`_retry_execution`, with `left = max_attempts - attempt` remaining
iterations: each iteration sleeps the backoff delay, re-invokes the body
(the invocation of attempt `attempt + 1`), swallows a retryable error and
re-raises a non-retryable one; exhaustion raises `PluginExecutionError`. -/
def retryGo (cfg : RetryConfig) (body : ℕ → Except PluginError PyDict) (pname : String)
    (left : ℕ) : ℕ → PluginError → Except PluginError PyDict × List ℚ :=
  Nat.rec (motive := fun _ => ℕ → PluginError → Except PluginError PyDict × List ℚ)
    (fun _attempt last_error =>
      (.error (executionError
        ("Plugin " ++ pname ++ " failed after " ++ toString cfg.max_attempts ++ " attempts")
        pname
        [("attempts", .num (cfg.max_attempts : ℚ)),
         ("last_error", .dict last_error.to_dict)]), []))
    (fun _ prev => retryGoStep cfg body prev) left

/-- `PluginManager._retry_execution(plugin, tab, account, error, retry_config)`:
the loop guard `attempt < max_attempts` is carried as the remaining
iteration count `max_attempts - attempt` (first argument of `retryGo`),
starting from `attempt = 1`. -/
def retryExecution (cfg : RetryConfig) (body : ℕ → Except PluginError PyDict)
    (pname : String) (error : PluginError) : Except PluginError PyDict × List ℚ :=
  retryGo cfg body pname (cfg.max_attempts - 1) 1 error

/-! ## `PluginManager.run_plugin` -/

/-- The dict literally returned by `run_plugin`'s outermost `except` clause. -/
def failureDict (e : PluginError) : PyDict :=
  [("success", .bool false), ("error", .dict e.to_dict)]

/-- The success assembly of `run_plugin`: `results.update(plugin_results)`,
then `results["execution_time"]`, then `results["success"] = True`. -/
def successDict (results plugin_results : PyDict) (execTime : ℚ) : PyDict :=
  dictInsert (dictInsert (dictUpdate results plugin_results)
    "execution_time" (.num execTime)) "success" (.bool true)

/-- The `try ... except` tail of `run_plugin` (source lines 504-542): invoke
the body, retry if the error is retryable and a retry configuration was
supplied, and convert any escaped exception into a `success=False` dict.
Returns the result dict, the advanced clock, and how many times this
plugin's body was invoked.  This section never raises. -/
def runBodySection (plugin : PluginDef) (retry_config : Option RetryConfig)
    (results : PyDict) (tick : ℕ) : PyDict × ℕ × ℕ :=
  match plugin.runBody plugin.config with
  | .ok pr => (successDict results pr (((tick : ℚ) + 1) - (tick : ℚ)), tick + 2, 1)
  | .error e =>
    match retry_config with
    | some cfg =>
      if isErrorRetryable e then
        match retryExecution cfg (fun _ => plugin.runBody plugin.config) plugin.pname e with
        | (.ok pr, delays) =>
            (successDict results pr (((tick : ℚ) + 1) - (tick : ℚ)), tick + 2, 1 + delays.length)
        | (.error e2, delays) => (failureDict e2, tick + 1, 1 + delays.length)
      else (failureDict e, tick + 1, 1)
    | Option.none => (failureDict e, tick + 1, 1)

/-- The `if config: plugin.configure(config)` step of `run_plugin`: only a
truthy (non-empty) dict replaces the plugin's mutable config; the base
`Plugin.configure` cannot fail (its schema check is a no-op). -/
def applyConfig (plugin : PluginDef) (config : Option PyDict) : PluginDef :=
  match config with
  | some c => if c.isEmpty then plugin else { plugin with config := c }
  | Option.none => plugin

/-- The outcome of a `run_plugin` call: the returned dict or the raised
exception, the advanced clock, and the ordered list of plugin bodies
invoked (one entry per invocation); the outer `Option.none` is fuel
exhaustion of the dependency recursion. -/
abbrev RPRes := Option (Except PluginError PyDict × ℕ × List String)

/-- One unfolding level of the mutually recursive pair
(`run_plugin`, its dependency pre-execution loop); `prev` is the pair one
fuel level down.  First component — `run_plugin(name, tab, account,
config, retry_config)` itself: resolve the plugin (fail fast), validate
dependencies, detect cycles, apply a truthy config, pre-run dependencies,
then run the body section.  Second component — the
`for dep in plugin.requires:` loop (source lines 489-502): recursively run
every dependency (optional ones included) through the same top-level entry
point, record each result under `f"{dep.name}_results"`, swallow a raised
`PluginError` of an optional dependency, re-raise one of a required
dependency. -/
def runStep (m : Manager) (n : ℕ)
    (prev : (String → Option PyDict → Option RetryConfig → ℕ → RPRes)
          × (String → List PluginDependency → PyDict → ℕ → List String → RPRes)) :
    (String → Option PyDict → Option RetryConfig → ℕ → RPRes)
    × (String → List PluginDependency → PyDict → ℕ → List String → RPRes) :=
  (fun name config retry_config tick =>
    match m.get_plugin name with
    | Option.none =>
        some (.error (dependencyError ("Plugin " ++ name ++ " not found") name), tick, [])
    | some plugin =>
      match m.validate_dependencies name with
      | some e => some (.error e, tick, [])
      | Option.none =>
        match m.detect_circular (n + 1) name with
        | Option.none => Option.none
        | some (some e) => some (.error e, tick, [])
        | some Option.none =>
          let plugin := applyConfig plugin config
          match prev.2 name plugin.requires [] tick [] with
          | Option.none => Option.none
          | some (.error e, tick', trace) => some (.error e, tick', trace)
          | some (.ok results, tick', trace) =>
            match runBodySection plugin retry_config results tick' with
            | (res, tick'', k) => some (.ok res, tick'', trace ++ List.replicate k name),
   fun name deps results tick trace =>
    match deps with
    | [] => some (.ok results, tick, trace)
    | dep :: rest =>
      if !dep.optional && (m.get_plugin dep.depname).isNone then
        some (.error (dependencyError
          ("Required plugin " ++ dep.depname ++ " for " ++ name ++ " not found") name),
          tick, trace)
      else
        match prev.1 dep.depname Option.none Option.none tick with
        | Option.none => Option.none
        | some (.ok r, tick', tr) =>
            prev.2 name rest
              (dictInsert results (dep.depname ++ "_results") (.dict r)) tick' (trace ++ tr)
        | some (.error e, tick', tr) =>
            if dep.optional then prev.2 name rest results tick' (trace ++ tr)
            else some (.error e, tick', trace ++ tr))

/-- The (`run_plugin`, dependency-loop) pair at a given fuel. -/
def runPair (m : Manager) (fuel : ℕ) :
    (String → Option PyDict → Option RetryConfig → ℕ → RPRes)
    × (String → List PluginDependency → PyDict → ℕ → List String → RPRes) :=
  Nat.rec (motive := fun _ =>
      (String → Option PyDict → Option RetryConfig → ℕ → RPRes)
      × (String → List PluginDependency → PyDict → ℕ → List String → RPRes))
    (fun _ _ _ _ => Option.none, fun _ _ _ _ _ => Option.none)
    (fun n prev => runStep m n prev) fuel

/-- `PluginManager.run_plugin(name, tab, account, config, retry_config)`. -/
def runPlugin (m : Manager) (fuel : ℕ) (name : String) (config : Option PyDict)
    (retry_config : Option RetryConfig) (tick : ℕ) : RPRes :=
  (runPair m fuel).1 name config retry_config tick

/-- The dependency pre-execution loop of `run_plugin`. -/
def runDeps (m : Manager) (fuel : ℕ) (name : String) (deps : List PluginDependency)
    (results : PyDict) (tick : ℕ) (trace : List String) : RPRes :=
  (runPair m fuel).2 name deps results tick trace

/-! ## Python value semantics used by `StepCondition.evaluate` -/

/-- Generic string-keyed association lookup. -/
def assocGet {α : Type} : List (String × α) → String → Option α
  | [], _ => Option.none
  | (k₀, v) :: rest, k => if k₀ = k then some v else assocGet rest k

/-- Numeric view of a value (Python `bool` is an `int` subtype). -/
def pyToNum : Val → Option ℚ
  | .bool b => some (if b then 1 else 0)
  | .num q => some q
  | _ => Option.none

mutual

/-- Python `==` (total, never raises): numeric cross-type coercion between
`bool` and numbers, structural on strings/lists/dicts, `False` across
unrelated types. -/
def pyEq : Val → Val → Bool
  | .null, .null => true
  | .bool a, .bool b => a == b
  | .bool a, .num q => (if a then (1 : ℚ) else 0) == q
  | .num q, .bool b => q == (if b then (1 : ℚ) else 0)
  | .num a, .num b => a == b
  | .str a, .str b => a == b
  | .list xs, .list ys => pyEqList xs ys
  | .dict xs, .dict ys =>
      (xs.map Prod.fst).all (fun k => (assocGet ys k).isSome)
        && (ys.map Prod.fst).all (fun k => (assocGet xs k).isSome)
        && pyEqDictVals xs ys
  | _, _ => false

/-- Elementwise Python `==` on lists. -/
def pyEqList : List Val → List Val → Bool
  | [], [] => true
  | x :: xs, y :: ys => pyEq x y && pyEqList xs ys
  | _, _ => false

/-- Per-key Python `==` of the first dict's values against the second's. -/
def pyEqDictVals : List (String × Val) → List (String × Val) → Bool
  | [], _ => true
  | (k, v) :: rest, ys =>
      (match assocGet ys k with
       | some w => pyEq v w
       | Option.none => false) && pyEqDictVals rest ys

end

mutual

/-- Python `a > b`: defined for numbers (with bool coercion), strings and
lists; raises `TypeError` between unordered operands. -/
def pyGt : Val → Val → Except String Bool
  | .bool a, .bool b => .ok ((if a then (1 : ℚ) else 0) > (if b then (1 : ℚ) else 0))
  | .bool a, .num q => .ok ((if a then (1 : ℚ) else 0) > q)
  | .num q, .bool b => .ok (q > (if b then (1 : ℚ) else 0))
  | .num a, .num b => .ok (a > b)
  | .str a, .str b => .ok (decide (b < a))
  | .list xs, .list ys => pyGtList xs ys
  | _, _ => .error "TypeError: unorderable types"

/-- Lexicographic Python `>` on lists: skip `==`-equal prefixes, then
compare the first differing elements. -/
def pyGtList : List Val → List Val → Except String Bool
  | [], [] => .ok false
  | _ :: _, [] => .ok true
  | [], _ :: _ => .ok false
  | x :: xs, y :: ys => if pyEq x y then pyGtList xs ys else pyGt x y

end

mutual

/-- Python `a < b`. -/
def pyLt : Val → Val → Except String Bool
  | .bool a, .bool b => .ok ((if a then (1 : ℚ) else 0) < (if b then (1 : ℚ) else 0))
  | .bool a, .num q => .ok ((if a then (1 : ℚ) else 0) < q)
  | .num q, .bool b => .ok (q < (if b then (1 : ℚ) else 0))
  | .num a, .num b => .ok (a < b)
  | .str a, .str b => .ok (decide (a < b))
  | .list xs, .list ys => pyLtList xs ys
  | _, _ => .error "TypeError: unorderable types"

/-- Lexicographic Python `<` on lists. -/
def pyLtList : List Val → List Val → Except String Bool
  | [], [] => .ok false
  | _ :: _, [] => .ok false
  | [], _ :: _ => .ok true
  | x :: xs, y :: ys => if pyEq x y then pyLtList xs ys else pyLt x y

end

/-- Substring test on character lists (Python `needle in s`). -/
def isInfixChars (n : List Char) : List Char → Bool
  | [] => n.isEmpty
  | c :: rest => n.isPrefixOf (c :: rest) || isInfixChars n rest

/-- Python `needle in haystack`: substring for strings, `==`-membership for
lists, key membership for dicts; `TypeError` on non-containers and on
unhashable dict probes. -/
def pyIn (needle haystack : Val) : Except String Bool :=
  match haystack with
  | .str s =>
    match needle with
    | .str n => .ok (isInfixChars n.data s.data)
    | _ => .error "TypeError: in <string> requires string"
  | .list xs => .ok (xs.any (fun x => pyEq needle x))
  | .dict kvs =>
    match needle with
    | .str k => .ok ((assocGet kvs k).isSome)
    | .list _ => .error "TypeError: unhashable type"
    | .dict _ => .error "TypeError: unhashable type"
    | _ => .ok false
  | _ => .error "TypeError: argument is not iterable"

/-! ## `StepCondition` (`famp/workflow.py`) -/

/-- `StepCondition` pydantic model; `operator` is kept as the raw string the
source dispatches on. -/
structure StepCondition where
  plugin_name : String
  field : String
  operator : String
  value : Val

/-- `StepCondition.evaluate(results)`: `Except.error` models a raised
`TypeError` escaping the unguarded comparison. -/
def StepCondition.evaluate (c : StepCondition) (results : List (String × PyDict)) :
    Except String Bool :=
  match assocGet results c.plugin_name with
  | Option.none => .ok false
  | some plugin_results =>
    match dictGet plugin_results c.field with
    | Option.none => .ok false
    | some actual =>
      if c.operator = "eq" then .ok (pyEq actual c.value)
      else if c.operator = "ne" then .ok (!pyEq actual c.value)
      else if c.operator = "gt" then pyGt actual c.value
      else if c.operator = "lt" then pyLt actual c.value
      else if c.operator = "contains" then pyIn c.value actual
      else if c.operator = "exists" then .ok true
      else .ok false

/-! ## Workflow data model (`famp/workflow.py`)

The data model is parametric in the timestamp type `τ`: the engine stores
timestamps without inspecting them.  The execution model instantiates
`τ := ℕ` (clock ticks); the persistence model instantiates `τ := DateTime`.
`data_dir` is carried as the path string. -/

/-- `WorkflowStepStatus` enum. -/
inductive WorkflowStepStatus where
  | pending | running | completed | failed | skipped
deriving DecidableEq, Repr

/-- `WorkflowStatus` enum. -/
inductive WorkflowStatus where
  | pending | running | completed | failed | paused
deriving DecidableEq, Repr

/-- `WorkflowStep` pydantic model. -/
structure WorkflowStep (τ : Type) where
  plugin_name : String
  config : Option PyDict := Option.none
  condition : Option StepCondition := Option.none
  status : WorkflowStepStatus := .pending
  result : Option PyDict := Option.none
  error : Option PyDict := Option.none
  start_time : Option τ := Option.none
  end_time : Option τ := Option.none

/-- `WorkflowStep.should_run(previous_results)`. -/
def WorkflowStep.should_run {τ : Type} (step : WorkflowStep τ)
    (previous_results : List (String × PyDict)) : Except String Bool :=
  match step.condition with
  | Option.none => .ok true
  | some c => c.evaluate previous_results

/-- `Workflow` pydantic model. -/
structure Workflow (τ : Type) where
  name : String
  description : String
  steps : List (WorkflowStep τ)
  status : WorkflowStatus := .pending
  current_step : ℕ := 0
  results : List (String × PyDict) := []
  created_at : τ
  updated_at : τ
  data_dir : Option String := Option.none

/-- Generic string-keyed insertion with Python dict update semantics. -/
def assocInsert {α : Type} : List (String × α) → String → α → List (String × α)
  | [], k, v => [(k, v)]
  | (k₀, v₀) :: rest, k, v =>
    if k₀ = k then (k, v) :: rest else (k₀, v₀) :: assocInsert rest k v

/-! ## Workflow execution (`Workflow.run`)

`Workflow.run` is modelled over `τ := ℕ` clock ticks.  Besides the final
workflow and the returned value / raised exception, the model emits the
ordered trace of observable transitions: every step/workflow status
assignment and every `save_state` call that actually persists (i.e. when
`data_dir` is set).  `Option.none` is fuel exhaustion inside
`run_plugin`. -/

/-- An observable event of a workflow run. -/
inductive WEvent where
  | stepStatus (i : ℕ) (s : WorkflowStepStatus)
  | wfStatus (s : WorkflowStatus)
  | save
deriving DecidableEq, Repr

/-- An exception escaping `Workflow.run`: a re-raised `PluginError` of a
step, or the `TypeError` of an unguarded condition comparison. -/
inductive RunErr where
  | plugin (e : PluginError)
  | typeErr (msg : String)

/-- `Workflow.save_state` as seen by the run loop: a no-op without
`data_dir`; otherwise `self.updated_at = datetime.now()` followed by the
(always-logged, never-raising) file write, observed as a `save` event. -/
def doSave (w : Workflow ℕ) (tick : ℕ) : Workflow ℕ × ℕ × List WEvent :=
  ({ w with updated_at := if w.data_dir.isSome then tick else w.updated_at },
   if w.data_dir.isSome then tick + 1 else tick,
   if w.data_dir.isSome then [.save] else [])

/-- The outcome of a workflow run: final workflow, returned results or
raised exception, emitted event trace, advanced clock. -/
abbrev WRes := Option (Workflow ℕ × Except RunErr (List (String × PyDict)) × List WEvent × ℕ)

/-- One iteration of the `while self.current_step < len(self.steps)` loop
of `Workflow.run`, together with the `try/except` envelope of the source
(re-raise on step failure after persisting; catch-all marking the workflow
failed); `prev` is the loop one iteration bound down. -/
def runLoopStep (m : Manager) (pfuel : ℕ)
    (prev : Workflow ℕ → ℕ → WRes) (w : Workflow ℕ) (tick : ℕ) : WRes :=
  if h : w.current_step < w.steps.length then
    let i := w.current_step
    let step := w.steps.get ⟨i, h⟩
    match step.should_run w.results with
    | .error te =>
      -- the TypeError escapes to the outer `except Exception`
      match doSave { w with status := WorkflowStatus.failed } tick with
      | (w₁, tick₁, evs₁) =>
        some (w₁, .error (.typeErr te), .wfStatus .failed :: evs₁, tick₁)
    | .ok false =>
      let w₁ := { w with steps := w.steps.set i { step with status := .skipped },
                         current_step := i + 1 }
      match prev w₁ tick with
      | Option.none => Option.none
      | some (w', out, evs, tick') => some (w', out, .stepStatus i .skipped :: evs, tick')
    | .ok true =>
      let step₁ := { step with status := WorkflowStepStatus.running, start_time := some tick }
      let w₁ := { w with steps := w.steps.set i step₁ }
      match runPlugin m pfuel step.plugin_name step.config Option.none (tick + 1) with
      | Option.none => Option.none
      | some (.ok result, tick₂, _) =>
        let step₂ := { step₁ with result := some result,
                                  status := WorkflowStepStatus.completed,
                                  end_time := some tick₂ }
        let w₂ := { w₁ with steps := w₁.steps.set i step₂,
                            results := assocInsert w₁.results step.plugin_name result }
        match doSave w₂ (tick₂ + 1) with
        | (w₃, tick₃, evs₁) =>
          match prev { w₃ with current_step := i + 1 } tick₃ with
          | Option.none => Option.none
          | some (w', out, evs, tick') =>
            some (w', out,
              .stepStatus i .running :: .stepStatus i .completed :: (evs₁ ++ evs), tick')
      | some (.error e, tick₂, _) =>
        let step₂ := { step₁ with error := some e.to_dict,
                                  status := WorkflowStepStatus.failed,
                                  end_time := some tick₂ }
        let w₂ := { w₁ with steps := w₁.steps.set i step₂, status := WorkflowStatus.failed }
        match doSave w₂ (tick₂ + 1) with
        | (w₃, tick₃, evs₁) =>
          -- the re-raise reaches the outer `except`: mark failed again, save again
          match doSave { w₃ with status := WorkflowStatus.failed } tick₃ with
          | (w₄, tick₄, evs₂) =>
            some (w₄, .error (.plugin e),
              .stepStatus i .running :: .stepStatus i .failed :: .wfStatus .failed ::
                (evs₁ ++ .wfStatus .failed :: evs₂), tick₄)
  else
    match doSave { w with status := WorkflowStatus.completed } tick with
    | (w₁, tick₁, evs₁) =>
      some (w₁, .ok w.results, .wfStatus .completed :: evs₁, tick₁)

/-- The run loop at iteration bound `gas`; since the cursor strictly
increases, `Workflow.run` supplies `steps.length + 1`, which always
suffices. -/
def runLoop (m : Manager) (pfuel : ℕ) (gas : ℕ) : Workflow ℕ → ℕ → WRes :=
  Nat.rec (motive := fun _ => Workflow ℕ → ℕ → WRes)
    (fun _ _ => Option.none)
    (fun _ prev => runLoopStep m pfuel prev) gas

/-- `Workflow.run(plugin_manager, tab, account, resume_from)`. -/
def Workflow.run (m : Manager) (pfuel : ℕ) (w : Workflow ℕ) (resume_from : Option ℕ)
    (tick : ℕ) :
    Option (Workflow ℕ × Except RunErr (List (String × PyDict)) × List WEvent × ℕ) :=
  let w₀ := match resume_from with
    | some idx => { w with current_step := idx }
    | Option.none => w
  let w₁ := { w₀ with status := WorkflowStatus.running }
  match runLoop m pfuel (w₁.steps.length + 1) w₁ tick with
  | Option.none => Option.none
  | some (w', out, evs, tick') => some (w', out, .wfStatus .running :: evs, tick')

/-! ## Persistence (`Workflow.save_state` / `Workflow.load_state`)

`save_state` serialises `self.model_dump()` with a `DateTimeEncoder`
(datetimes become `isoformat()` strings, `data_dir` becomes its path
string) into the per-name JSON file; `load_state` parses the file and
rebuilds the nested structures (`WorkflowStep.from_dict`, truthiness-guarded
condition / datetime conversion, pydantic enum coercion).  The JSON text
itself is modelled by the parsed `Val`; the file system by a name-keyed
store.  Pydantic coercions outside what serialised states can contain
(e.g. numeric epoch timestamps) are not modelled. -/

/-- The decimal digit character of `n < 10`. -/
def digitChar10 : ℕ → Char
  | 0 => '0' | 1 => '1' | 2 => '2' | 3 => '3' | 4 => '4'
  | 5 => '5' | 6 => '6' | 7 => '7' | 8 => '8' | _ => '9'

/-- Decimal digits of `n`, most significant first. -/
def natToDigits (n : ℕ) : List Char :=
  if h : n < 10 then [digitChar10 n]
  else natToDigits (n / 10) ++ [digitChar10 (n % 10)]
termination_by n
decreasing_by exact Nat.div_lt_self (by omega) (by omega)

/-- Numeric value of a digit character. -/
def digitVal (c : Char) : ℕ := c.toNat - 48

/-- Digit-string accumulator parse. -/
def parseDigitsAux (acc : ℕ) : List Char → ℕ
  | [] => acc
  | c :: cs => parseDigitsAux (10 * acc + digitVal c) cs

/-- The natural number denoted by a digit string. -/
def parseDigits (cs : List Char) : ℕ := parseDigitsAux 0 cs

/-- `n` printed zero-padded to (at least) `k` digits (`f"{n:0kd}"`). -/
def padDigits (k n : ℕ) : List Char :=
  List.replicate (k - (natToDigits n).length) '0' ++ natToDigits n

/-- Read exactly `k` digit characters. -/
def readDigits (k : ℕ) (cs : List Char) : Option (ℕ × List Char) :=
  let pre := cs.take k
  if pre.length = k ∧ pre.all Char.isDigit then some (parseDigits pre, cs.drop k)
  else Option.none

/-- Expect one fixed character. -/
def expectChar (c : Char) : List Char → Option (List Char)
  | [] => Option.none
  | c₀ :: rest => if c₀ = c then some rest else Option.none

/-- A Python `datetime.datetime` (naive, as the source constructs them). -/
structure DateTime where
  year : ℕ
  month : ℕ
  day : ℕ
  hour : ℕ
  minute : ℕ
  second : ℕ
  microsecond : ℕ
deriving DecidableEq, Repr

/-- The field ranges Python's `datetime` guarantees (minus per-month day
counts, which the serialisation does not depend on). -/
def DateTime.Valid (d : DateTime) : Prop :=
  1 ≤ d.year ∧ d.year ≤ 9999 ∧ 1 ≤ d.month ∧ d.month ≤ 12 ∧ 1 ≤ d.day ∧ d.day ≤ 31 ∧
  d.hour ≤ 23 ∧ d.minute ≤ 59 ∧ d.second ≤ 59 ∧ d.microsecond ≤ 999999

instance (d : DateTime) : Decidable d.Valid := by unfold DateTime.Valid; infer_instance

/-- `datetime.isoformat()` (character list): `YYYY-MM-DDTHH:MM:SS`, with
`.ffffff` appended only when `microsecond` is nonzero. -/
def DateTime.isoChars (d : DateTime) : List Char :=
  padDigits 4 d.year ++ '-' :: padDigits 2 d.month ++ '-' :: padDigits 2 d.day ++
  'T' :: padDigits 2 d.hour ++ ':' :: padDigits 2 d.minute ++ ':' :: padDigits 2 d.second ++
  (if d.microsecond = 0 then [] else '.' :: padDigits 6 d.microsecond)

/-- `datetime.isoformat()`. -/
def DateTime.isoformat (d : DateTime) : String := String.mk d.isoChars

/-- `datetime.fromisoformat` on the grammar `isoformat` emits. -/
def parseDTChars (cs : List Char) : Option DateTime := do
  let (y, cs) ← readDigits 4 cs
  let cs ← expectChar '-' cs
  let (mo, cs) ← readDigits 2 cs
  let cs ← expectChar '-' cs
  let (dy, cs) ← readDigits 2 cs
  let cs ← expectChar 'T' cs
  let (h, cs) ← readDigits 2 cs
  let cs ← expectChar ':' cs
  let (mi, cs) ← readDigits 2 cs
  let cs ← expectChar ':' cs
  let (s, cs) ← readDigits 2 cs
  match cs with
  | [] => some ⟨y, mo, dy, h, mi, s, 0⟩
  | '.' :: cs₁ => do
    let (us, rest) ← readDigits 6 cs₁
    match rest with
    | [] => some ⟨y, mo, dy, h, mi, s, us⟩
    | _ => Option.none
  | _ => Option.none

/-- `datetime.fromisoformat`. -/
def fromisoformat (s : String) : Option DateTime := parseDTChars s.data

/-- The serialised string of a `WorkflowStepStatus` (a `str` enum). -/
def WorkflowStepStatus.value : WorkflowStepStatus → String
  | .pending => "pending" | .running => "running" | .completed => "completed"
  | .failed => "failed" | .skipped => "skipped"

/-- Pydantic coercion of a string back into `WorkflowStepStatus`. -/
def stepStatusOfString (s : String) : Option WorkflowStepStatus :=
  if s = "pending" then some .pending
  else if s = "running" then some .running
  else if s = "completed" then some .completed
  else if s = "failed" then some .failed
  else if s = "skipped" then some .skipped
  else Option.none

/-- The serialised string of a `WorkflowStatus`. -/
def WorkflowStatus.value : WorkflowStatus → String
  | .pending => "pending" | .running => "running" | .completed => "completed"
  | .failed => "failed" | .paused => "paused"

/-- Pydantic coercion of a string back into `WorkflowStatus`. -/
def wfStatusOfString (s : String) : Option WorkflowStatus :=
  if s = "pending" then some .pending
  else if s = "running" then some .running
  else if s = "completed" then some .completed
  else if s = "failed" then some .failed
  else if s = "paused" then some .paused
  else Option.none

/-- `mapM` over `Option`, written out for direct unfolding. -/
def optMapM {α β : Type} (g : α → Option β) : List α → Option (List β)
  | [] => some []
  | x :: xs =>
    match g x with
    | Option.none => Option.none
    | some y =>
      match optMapM g xs with
      | Option.none => Option.none
      | some ys => some (y :: ys)

/-- Serialisation of an optional dict field (`config` / `result` / `error`). -/
def encodeOptDict : Option PyDict → Val
  | Option.none => .null
  | some d => .dict d

/-- Deserialisation of an optional dict field (pydantic `Optional[Dict]`). -/
def decodeOptDict : Option Val → Option (Option PyDict)
  | Option.none => some Option.none
  | some .null => some Option.none
  | some (.dict d) => some (some d)
  | some _ => Option.none

/-- Serialisation of an optional datetime field. -/
def encodeOptTime {τ : Type} (fmt : τ → String) : Option τ → Val
  | Option.none => .null
  | some t => .str (fmt t)

/-- Deserialisation of an optional datetime field: `from_dict` converts a
truthy value with `fromisoformat` (failure escapes to `load_state`'s
catch-all), leaves `None` alone. -/
def decodeOptTime {τ : Type} (parse : String → Option τ) : Option Val → Option (Option τ)
  | Option.none => some Option.none
  | some .null => some Option.none
  | some (.str s) =>
    match parse s with
    | some t => some (some t)
    | Option.none => Option.none
  | some _ => Option.none

/-- `StepCondition.model_dump()`. -/
def encodeCondition (c : StepCondition) : Val :=
  .dict [("plugin_name", .str c.plugin_name), ("field", .str c.field),
         ("operator", .str c.operator), ("value", c.value)]

/-- `StepCondition(**data)`. -/
def decodeCondition (v : Val) : Option StepCondition :=
  match v with
  | .dict kvs =>
    match dictGet kvs "plugin_name", dictGet kvs "field",
          dictGet kvs "operator", dictGet kvs "value" with
    | some (.str pn), some (.str f), some (.str op), some val =>
        some { plugin_name := pn, field := f, operator := op, value := val }
    | _, _, _, _ => Option.none
  | _ => Option.none

/-- Serialisation of the optional condition. -/
def encodeOptCondition : Option StepCondition → Val
  | Option.none => .null
  | some c => encodeCondition c

/-- Deserialisation of the optional condition: `from_dict` converts only a
truthy value (an empty dict is left in place and then rejected by
pydantic). -/
def decodeOptCondition : Option Val → Option (Option StepCondition)
  | Option.none => some Option.none
  | some .null => some Option.none
  | some (.dict []) => Option.none
  | some v =>
    match decodeCondition v with
    | some c => some (some c)
    | Option.none => Option.none

/-- Deserialisation of a step's `status` string (pydantic default
`pending` when absent). -/
def decodeStepStatus : Option Val → Option WorkflowStepStatus
  | Option.none => some .pending
  | some (.str s) => stepStatusOfString s
  | some _ => Option.none

/-- `WorkflowStep.to_dict` as `save_state` produces it (via `model_dump` +
`DateTimeEncoder`). -/
def encodeStep {τ : Type} (fmt : τ → String) (st : WorkflowStep τ) : Val :=
  .dict [("plugin_name", .str st.plugin_name),
         ("config", encodeOptDict st.config),
         ("condition", encodeOptCondition st.condition),
         ("status", .str st.status.value),
         ("result", encodeOptDict st.result),
         ("error", encodeOptDict st.error),
         ("start_time", encodeOptTime fmt st.start_time),
         ("end_time", encodeOptTime fmt st.end_time)]

/-- `WorkflowStep.from_dict` followed by `WorkflowStep(**data)`. -/
def decodeStep {τ : Type} (parse : String → Option τ) (v : Val) : Option (WorkflowStep τ) :=
  match v with
  | .dict kvs =>
    match dictGet kvs "plugin_name" with
    | some (.str pn) =>
      (decodeOptDict (dictGet kvs "config")).bind fun config =>
      (decodeOptCondition (dictGet kvs "condition")).bind fun condition =>
      (decodeStepStatus (dictGet kvs "status")).bind fun status =>
      (decodeOptDict (dictGet kvs "result")).bind fun result =>
      (decodeOptDict (dictGet kvs "error")).bind fun error =>
      (decodeOptTime parse (dictGet kvs "start_time")).bind fun start_time =>
      (decodeOptTime parse (dictGet kvs "end_time")).map fun end_time =>
      { plugin_name := pn, config := config, condition := condition, status := status,
        result := result, error := error, start_time := start_time, end_time := end_time }
    | _ => Option.none
  | _ => Option.none

/-- `Workflow.model_dump()` + `DateTimeEncoder` + path-to-string, i.e. the
persisted JSON record. -/
def encodeWorkflow {τ : Type} (fmt : τ → String) (w : Workflow τ) : Val :=
  .dict [("name", .str w.name),
         ("description", .str w.description),
         ("steps", .list (w.steps.map (encodeStep fmt))),
         ("status", .str w.status.value),
         ("current_step", .num (w.current_step : ℚ)),
         ("results", .dict (w.results.map (fun kv => (kv.1, .dict kv.2)))),
         ("created_at", .str (fmt w.created_at)),
         ("updated_at", .str (fmt w.updated_at)),
         ("data_dir", match w.data_dir with | Option.none => .null | some s => .str s)]

/-- The body of `load_state`: rebuild the `Workflow` from the parsed JSON
record; any conversion failure is caught and turns into `None`. -/
def decodeWorkflow {τ : Type} (parse : String → Option τ) (v : Val) : Option (Workflow τ) :=
  match v with
  | .dict kvs =>
    match dictGet kvs "name", dictGet kvs "description" with
    | some (.str name), some (.str description) =>
      (match dictGet kvs "steps" with
       | some (.list vs) => optMapM (decodeStep parse) vs
       | _ => Option.none).bind fun steps =>
      (match dictGet kvs "status" with
       | Option.none => some WorkflowStatus.pending
       | some (.str s) => wfStatusOfString s
       | some _ => Option.none).bind fun status =>
      (match dictGet kvs "current_step" with
       | some (.num q) => if q.den = 1 ∧ 0 ≤ q then some q.num.toNat else Option.none
       | _ => Option.none).bind fun current_step =>
      (match dictGet kvs "results" with
       | Option.none => some []
       | some (.dict rk) =>
           optMapM (fun kv : String × Val =>
             match kv.2 with
             | .dict d => some (kv.1, d)
             | _ => Option.none) rk
       | some _ => Option.none).bind fun results =>
      (match dictGet kvs "created_at" with
       | some (.str s) => parse s
       | _ => Option.none).bind fun created_at =>
      (match dictGet kvs "updated_at" with
       | some (.str s) => parse s
       | _ => Option.none).bind fun updated_at =>
      (match dictGet kvs "data_dir" with
       | Option.none => some Option.none
       | some .null => some Option.none
       | some (.str s) => some (some s)
       | some _ => Option.none).map fun data_dir =>
      { name := name, description := description, steps := steps, status := status,
        current_step := current_step, results := results, created_at := created_at,
        updated_at := updated_at, data_dir := data_dir }
    | _, _ => Option.none
  | _ => Option.none

/-- The per-name persistent store (one JSON file per workflow name). -/
abbrev WStore := List (String × Val)

/-- `Workflow.save_state()`: a no-op without `data_dir`; otherwise bumps
`updated_at` to `now` and overwrites the record under `self.name`. -/
def Workflow.save_state {τ : Type} (fmt : τ → String) (w : Workflow τ) (now : τ)
    (store : WStore) : Workflow τ × WStore :=
  match w.data_dir with
  | Option.none => (w, store)
  | some _ =>
    let w' := { w with updated_at := now }
    (w', assocInsert store w.name (encodeWorkflow fmt w'))

/-- `Workflow.load_state(name, data_dir)`: `None` when no record exists. -/
def Workflow.load_state {τ : Type} (parse : String → Option τ) (name : String)
    (store : WStore) : Option (Workflow τ) :=
  match assocGet store name with
  | Option.none => Option.none
  | some v => decodeWorkflow parse v

/-- Validity of an optional timestamp. -/
def OptValid : Option DateTime → Prop
  | Option.none => True
  | some t => t.Valid

instance (o : Option DateTime) : Decidable (OptValid o) :=
  match o with
  | Option.none => .isTrue trivial
  | some _ => inferInstanceAs (Decidable (DateTime.Valid _))

/-- All timestamps stored in a workflow lie in Python's `datetime` ranges. -/
def Workflow.timesValid (w : Workflow DateTime) : Prop :=
  w.created_at.Valid ∧ w.updated_at.Valid ∧
  ∀ st ∈ w.steps, OptValid st.start_time ∧ OptValid st.end_time

instance (w : Workflow DateTime) : Decidable w.timesValid := by
  unfold Workflow.timesValid; infer_instance

/-! ## Graph-theoretic notions for cycle detection -/

/-- An edge of the required-dependency graph. -/
def Edge (g : List (String × List String)) (a b : String) : Prop := b ∈ graphDeps g a

/-- Some cycle is reachable from `x` along dependency edges. -/
def CycleReachable (g : List (String × List String)) (x : String) : Prop :=
  ∃ c, Relation.ReflTransGen (Edge g) x c ∧ Relation.TransGen (Edge g) c c

/-- The invariant of the DFS state `(visited, path)` in
`_detect_circular_dependencies`: the path is visited, and every finished
(visited, off-path) node has finished successors only and lies on no cycle. -/
def DfsInv (g : List (String × List String)) (visited path : List String) : Prop :=
  (∀ a ∈ path, a ∈ visited) ∧
  ∀ b ∈ visited, b ∉ path →
    (∀ d, Edge g b d → d ∈ visited ∧ d ∉ path) ∧ ¬ Relation.TransGen (Edge g) b b

/-! ## Retry schedule -/

/-- The full backoff schedule of a configuration: entry `i` (0-based) is the
delay slept before attempt `i + 2`. -/
def retrySchedule (cfg : RetryConfig) : List ℚ :=
  (List.range (cfg.max_attempts - 1)).map
    (fun i => min (cfg.base_delay * cfg.exponential_base ^ i) cfg.max_delay)

/-! ## Trace predicates for persistence-after-steps -/

/-- Scan forward for a `save` before the next step-status event. -/
def seekSave : List WEvent → Bool
  | [] => false
  | .save :: _ => true
  | .stepStatus _ _ :: _ => false
  | .wfStatus _ :: rest => seekSave rest

/-- The literal reading of "the state is persisted after every step status
change": after each step-status event a `save` occurs before any further
step-status event. -/
def savedAfterEveryStepChange : List WEvent → Bool
  | [] => true
  | .stepStatus _ _ :: rest => seekSave rest && savedAfterEveryStepChange rest
  | _ :: rest => savedAfterEveryStepChange rest

/-- The save pattern the run loop actually guarantees (for a workflow with
`data_dir` set): a save after each executed step's terminal status (and a
second one after a failure, from the outer handler), a save at termination —
and no save tied to a skip transition. -/
inductive StepsTraceOK : List WEvent → Prop
  | done : StepsTraceOK [.wfStatus .completed, .save]
  | skip (i : ℕ) (rest : List WEvent) : StepsTraceOK rest →
      StepsTraceOK (.stepStatus i .skipped :: rest)
  | okStep (i : ℕ) (rest : List WEvent) : StepsTraceOK rest →
      StepsTraceOK (.stepStatus i .running :: .stepStatus i .completed :: .save :: rest)
  | failStep (i : ℕ) :
      StepsTraceOK [.stepStatus i .running, .stepStatus i .failed, .wfStatus .failed,
                    .save, .wfStatus .failed, .save]
  | condFail : StepsTraceOK [.wfStatus .failed, .save]

/-! ## Observation helpers for concrete runs -/

/-- The `success` flag of a `run_plugin` outcome (`none` when the call
raised or the flag is absent/non-boolean). -/
def successFlag (o : Except PluginError PyDict) : Option Bool :=
  match o with
  | .ok d =>
    match dictGet d "success" with
    | some (.bool b) => some b
    | _ => Option.none
  | .error _ => Option.none

/-- The code of a raised `run_plugin` exception. -/
def raisedCode (o : Except PluginError PyDict) : Option ErrorCode :=
  match o with
  | .ok _ => Option.none
  | .error e => some e.code

/-- Whether an `error` record is present in a returned result dict. -/
def hasErrorRecord (o : Except PluginError PyDict) : Bool :=
  match o with
  | .ok d => (dictGet d "error").isSome
  | .error _ => false

/-- The statuses of a workflow's steps, in order. -/
def stepStatuses {τ : Type} (w : Workflow τ) : List WorkflowStepStatus :=
  w.steps.map (fun s => s.status)

/-- Whether a workflow-run outcome returned normally. -/
def wfReturned (o : Except RunErr (List (String × PyDict))) : Bool :=
  match o with
  | .ok _ => true
  | .error _ => false

/-! ## Concrete scenarios -/

/-- A plugin body that always succeeds with `payload`. -/
def okBody (payload : PyDict) : PyDict → Except PluginError PyDict := fun _ => .ok payload

/-- A plugin body that always raises `PluginError(code, msg, pname)`. -/
def failBody (code : ErrorCode) (msg pname : String) : PyDict → Except PluginError PyDict :=
  fun _ => .error { code := code, message := msg, plugin_name := pname }

/-- C1 scenario: `p` requires (non-optionally) `d`, and `d`'s body raises a
`NETWORK_ERROR`. -/
def mgrReqDep : Manager :=
  ⟨[("d", { pname := "d", runBody := failBody .network "boom" "d" }),
    ("p", { pname := "p", requires := [{ depname := "d" }],
            runBody := okBody [("x", .num 1)] })]⟩

/-- C3 scenario: `P` requires `C` then `D`; `D` requires the unregistered
`E`. -/
def mgrNested : Manager :=
  ⟨[("C", { pname := "C", runBody := okBody [("c", .num 1)] }),
    ("D", { pname := "D", requires := [{ depname := "E" }],
            runBody := okBody [("d", .num 1)] }),
    ("P", { pname := "P", requires := [{ depname := "C" }, { depname := "D" }],
            runBody := okBody [("p", .num 1)] })]⟩

/-- Workflow scenarios: `A` and `C` succeed, `failing`'s body raises. -/
def mgrABC : Manager :=
  ⟨[("A", { pname := "A", runBody := okBody [("value", .num 42)] }),
    ("failing", { pname := "failing", runBody := failBody .execution "Test failure" "failing" }),
    ("C", { pname := "C", runBody := okBody [("done", .bool true)] })]⟩

/-- C2 scenario: the `[A, Failing, C]` workflow. -/
def wfAFC : Workflow ℕ :=
  { name := "wf", description := "t",
    steps := [{ plugin_name := "A" }, { plugin_name := "failing" }, { plugin_name := "C" }],
    created_at := 0, updated_at := 0, data_dir := some "dd" }

/-- C8 scenario: a condition-skipped step followed by an executed step. -/
def wfSkipThenRun : Workflow ℕ :=
  { name := "wf8", description := "t",
    steps := [{ plugin_name := "A",
                condition := some { plugin_name := "nope", field := "f", operator := "eq",
                                    value := .num 1 } },
              { plugin_name := "C" }],
    created_at := 0, updated_at := 0, data_dir := some "dd" }

/-- The diamond graph: `A` requires `B, C`; `B` and `C` both require `D`. -/
def diamondGraph : List (String × List String) :=
  [("A", ["B", "C"]), ("B", ["D"]), ("C", ["D"]), ("D", [])]

/-- A graph with the cycle `y → z → y` reachable from `x`. -/
def cycGraph : List (String × List String) :=
  [("x", ["y"]), ("y", ["z"]), ("z", ["y"])]

/-- A retryably-failing body for the backoff scenarios. -/
def alwaysNetworkFail : ℕ → Except PluginError PyDict :=
  fun _ => .error { code := .network, message := "x", plugin_name := "p" }

/-- The initial error handed to `_retry_execution` in the backoff
scenarios. -/
def netErr : PluginError := { code := .network, message := "x", plugin_name := "p" }

/-- A registry whose required-dependency graph is the diamond. -/
def mgrDiamond : Manager :=
  ⟨[("A", { pname := "A", requires := [{ depname := "B" }, { depname := "C" }],
            runBody := okBody [] }),
    ("B", { pname := "B", requires := [{ depname := "D" }], runBody := okBody [] }),
    ("C", { pname := "C", requires := [{ depname := "D" }], runBody := okBody [] }),
    ("D", { pname := "D", runBody := okBody [] })]⟩

/-- A registry whose required-dependency graph has the cycle `y → z → y`
reachable from `x`. -/
def mgrCyc : Manager :=
  ⟨[("x", { pname := "x", requires := [{ depname := "y" }], runBody := okBody [] }),
    ("y", { pname := "y", requires := [{ depname := "z" }], runBody := okBody [] }),
    ("z", { pname := "z", requires := [{ depname := "y" }], runBody := okBody [] })]⟩

/-- Sample timestamps for the persistence scenario. -/
def dtA : DateTime := ⟨2025, 3, 7, 23, 59, 58, 123456⟩

/-- A second sample timestamp (microsecond-free branch of `isoformat`). -/
def dtB : DateTime := ⟨2024, 12, 31, 0, 5, 0, 0⟩

/-- A populated workflow exercising every serialised field for the
persistence round-trip scenario. -/
def wfDemo : Workflow DateTime :=
  { name := "w1", description := "demo",
    steps := [{ plugin_name := "login", status := .completed,
                config := some [("retries", .num 2)],
                result := some [("success", .bool true), ("logged_in", .bool true)],
                start_time := some dtB, end_time := some dtA },
              { plugin_name := "scroll_feed",
                condition := some { plugin_name := "login", field := "logged_in",
                                    operator := "eq", value := .bool true },
                error := some [("code", .str "EXECUTION_ERROR")] }],
    status := .failed, current_step := 1,
    results := [("login", [("success", .bool true), ("logged_in", .bool true)])],
    created_at := dtA, updated_at := dtB, data_dir := some "/data/famp" }

/-! # Theorems -/

/-! ## Unfolding equations of the fuel recursions -/

/-- `visit` with no fuel. -/
theorem visit_zero (g : List (String × List String)) (node : String)
    (visited path : List String) : visit g 0 node visited path = Option.none := rfl

/-- One unfolding of `visit`. -/
theorem visit_succ (g : List (String × List String)) (fuel : ℕ) (node : String)
    (visited path : List String) :
    visit g (fuel + 1) node visited path =
      if node ∈ path then some (.error (path.drop (idxOf node path) ++ [node]))
      else if node ∈ visited then some (.ok visited)
      else visitList g fuel (graphDeps g node) (node :: visited) (path ++ [node]) := rfl

/-- The dependency loop with no fuel. -/
theorem visitList_zero (g : List (String × List String)) (ds visited path : List String) :
    visitList g 0 ds visited path = Option.none := rfl

/-- The dependency loop on an empty list. -/
theorem visitList_succ_nil (g : List (String × List String)) (fuel : ℕ)
    (visited path : List String) :
    visitList g (fuel + 1) [] visited path = some (.ok visited) := rfl

/-- One unfolding of the dependency loop. -/
theorem visitList_succ_cons (g : List (String × List String)) (fuel : ℕ) (d : String)
    (ds visited path : List String) :
    visitList g (fuel + 1) (d :: ds) visited path =
      match visit g fuel d visited path with
      | Option.none => Option.none
      | some (.error c) => some (.error c)
      | some (.ok v) => visitList g fuel ds v path := rfl

/-- The retry loop after exhaustion. -/
theorem retryGo_zero (cfg : RetryConfig) (body : ℕ → Except PluginError PyDict)
    (pname : String) (attempt : ℕ) (e : PluginError) :
    retryGo cfg body pname 0 attempt e =
      (.error (executionError
        ("Plugin " ++ pname ++ " failed after " ++ toString cfg.max_attempts ++ " attempts")
        pname
        [("attempts", .num (cfg.max_attempts : ℚ)), ("last_error", .dict e.to_dict)]),
       []) := rfl

/-- One unfolding of the retry loop. -/
theorem retryGo_succ (cfg : RetryConfig) (body : ℕ → Except PluginError PyDict)
    (pname : String) (left attempt : ℕ) (e : PluginError) :
    retryGo cfg body pname (left + 1) attempt e =
      retryGoStep cfg body (retryGo cfg body pname left) attempt e := rfl

/-- `run_plugin` with no fuel. -/
theorem runPlugin_zero (m : Manager) (name : String) (config : Option PyDict)
    (rc : Option RetryConfig) (tick : ℕ) :
    runPlugin m 0 name config rc tick = Option.none := rfl

/-- One unfolding of `run_plugin`. -/
theorem runPlugin_succ (m : Manager) (fuel : ℕ) (name : String) (config : Option PyDict)
    (retry_config : Option RetryConfig) (tick : ℕ) :
    runPlugin m (fuel + 1) name config retry_config tick =
      match m.get_plugin name with
      | Option.none =>
          some (.error (dependencyError ("Plugin " ++ name ++ " not found") name), tick, [])
      | some plugin =>
        match m.validate_dependencies name with
        | some e => some (.error e, tick, [])
        | Option.none =>
          match m.detect_circular (fuel + 1) name with
          | Option.none => Option.none
          | some (some e) => some (.error e, tick, [])
          | some Option.none =>
            match runDeps m fuel name (applyConfig plugin config).requires [] tick [] with
            | Option.none => Option.none
            | some (.error e, tick', trace) => some (.error e, tick', trace)
            | some (.ok results, tick', trace) =>
              match runBodySection (applyConfig plugin config) retry_config results tick' with
              | (res, tick'', k) => some (.ok res, tick'', trace ++ List.replicate k name) :=
  rfl

/-- The dependency pre-execution loop with no fuel. -/
theorem runDeps_zero (m : Manager) (name : String) (deps : List PluginDependency)
    (results : PyDict) (tick : ℕ) (trace : List String) :
    runDeps m 0 name deps results tick trace = Option.none := rfl

/-- The dependency pre-execution loop on an empty list. -/
theorem runDeps_succ_nil (m : Manager) (fuel : ℕ) (name : String) (results : PyDict)
    (tick : ℕ) (trace : List String) :
    runDeps m (fuel + 1) name [] results tick trace = some (.ok results, tick, trace) := rfl

/-- One unfolding of the dependency pre-execution loop. -/
theorem runDeps_succ_cons (m : Manager) (fuel : ℕ) (name : String)
    (dep : PluginDependency) (rest : List PluginDependency) (results : PyDict)
    (tick : ℕ) (trace : List String) :
    runDeps m (fuel + 1) name (dep :: rest) results tick trace =
      (if !dep.optional && (m.get_plugin dep.depname).isNone then
        some (.error (dependencyError
          ("Required plugin " ++ dep.depname ++ " for " ++ name ++ " not found") name),
          tick, trace)
      else
        match runPlugin m fuel dep.depname Option.none Option.none tick with
        | Option.none => Option.none
        | some (.ok r, tick', tr) =>
            runDeps m fuel name rest
              (dictInsert results (dep.depname ++ "_results") (.dict r)) tick' (trace ++ tr)
        | some (.error e, tick', tr) =>
            if dep.optional then runDeps m fuel name rest results tick' (trace ++ tr)
            else some (.error e, tick', trace ++ tr)) := rfl

/-- The workflow loop with no gas. -/
theorem runLoop_zero (m : Manager) (pfuel : ℕ) (w : Workflow ℕ) (tick : ℕ) :
    runLoop m pfuel 0 w tick = Option.none := rfl

/-- One unfolding of the workflow loop. -/
theorem runLoop_succ (m : Manager) (pfuel gas : ℕ) (w : Workflow ℕ) (tick : ℕ) :
    runLoop m pfuel (gas + 1) w tick =
      runLoopStep m pfuel (runLoop m pfuel gas) w tick := rfl

/-! ## Condition evaluation (claims C7, C9, C10) -/

/-- C7 (counterexample): with plugin `p` recorded (an entry exists in the
results map) but the condition's field absent from its result, `evaluate`
with operator `exists` returns `False` — the field-presence guard precedes
the `exists` branch — while the claim asserts it returns `True` whenever
the plugin has any recorded result. -/
theorem evaluate_exists_ignores_recorded_result :
    (assocGet ([("p", ([] : PyDict))]) "p").isSome = true ∧
    StepCondition.evaluate
      { plugin_name := "p", field := "f", operator := "exists", value := .null }
      [("p", [])] = .ok false :=
  ⟨rfl, rfl⟩

/-- C7 (amended): `evaluate` with operator `exists` returns `True` exactly
when the named plugin has a recorded result AND the condition's field is
present in it (the field's value is ignored). -/
theorem evaluate_exists_iff_field_present (c : StepCondition)
    (results : List (String × PyDict)) (hop : c.operator = "exists") :
    c.evaluate results = .ok
      (match assocGet results c.plugin_name with
       | Option.none => false
       | some pr => (dictGet pr c.field).isSome) := by
  unfold StepCondition.evaluate
  cases h : assocGet results c.plugin_name with
  | none => rfl
  | some pr =>
    cases h₂ : dictGet pr c.field with
    | none => simp [h₂]
    | some v => simp [h₂, hop]

/-- C7 witness: a present field makes `exists` true. -/
theorem evaluate_exists_iff_field_present_witness :
    StepCondition.evaluate
      { plugin_name := "p", field := "f", operator := "exists", value := .null }
      [("p", [("f", .num 3)])] = .ok true :=
  evaluate_exists_iff_field_present
    { plugin_name := "p", field := "f", operator := "exists", value := .null }
    [("p", [("f", .num 3)])] rfl

/-- C9 (counterexample): comparing a string field against a numeric
condition value with `gt` raises a `TypeError` (the comparison is
unguarded); it does not return `False` as the claim asserts. -/
theorem evaluate_gt_string_number_raises :
    StepCondition.evaluate
      { plugin_name := "p", field := "f", operator := "gt", value := .num 5 }
      [("p", [("f", .str "abc")])] = .error "TypeError: unorderable types" ∧
    StepCondition.evaluate
      { plugin_name := "p", field := "f", operator := "gt", value := .num 5 }
      [("p", [("f", .str "abc")])] ≠ .ok false :=
  ⟨rfl, fun h => Except.noConfusion h⟩

/-- C9 (amended): for `gt`/`lt` between a string operand and a numeric
condition value, `evaluate` raises (propagates the `TypeError`) rather than
returning `False`. -/
theorem evaluate_gt_lt_unordered_raises (c : StepCondition)
    (results : List (String × PyDict)) (pr : PyDict) (s : String) (q : ℚ)
    (hop : c.operator = "gt" ∨ c.operator = "lt")
    (hp : assocGet results c.plugin_name = some pr)
    (hf : dictGet pr c.field = some (.str s))
    (hv : c.value = .num q) :
    ∃ msg, c.evaluate results = .error msg := by
  rcases hop with h | h
  · exact ⟨"TypeError: unorderable types", by
      simp only [StepCondition.evaluate, hp, hf, h, hv]; rfl⟩
  · exact ⟨"TypeError: unorderable types", by
      simp only [StepCondition.evaluate, hp, hf, h, hv]; rfl⟩

/-- C9 witness: the `lt` case at a concrete input. -/
theorem evaluate_gt_lt_unordered_raises_witness :
    ∃ msg,
      StepCondition.evaluate
        { plugin_name := "q", field := "g", operator := "lt", value := .num 7 }
        [("q", [("g", .str "xy")])] = .error msg :=
  evaluate_gt_lt_unordered_raises
    { plugin_name := "q", field := "g", operator := "lt", value := .num 7 }
    [("q", [("g", .str "xy")])] [("g", .str "xy")] "xy" 7
    (Or.inr rfl) rfl rfl rfl

/-- C10: with the named plugin's result and the field both present, an
operator string outside `eq/ne/gt/lt/contains/exists` makes `evaluate`
return `False` (the fall-through branch) rather than raising. -/
theorem evaluate_unknown_operator_false (c : StepCondition)
    (results : List (String × PyDict)) (pr : PyDict) (v : Val)
    (hop : c.operator ∉ (["eq", "ne", "gt", "lt", "contains", "exists"] : List String))
    (hp : assocGet results c.plugin_name = some pr)
    (hf : dictGet pr c.field = some v) :
    c.evaluate results = .ok false := by
  simp only [List.mem_cons, List.not_mem_nil, or_false, not_or] at hop
  obtain ⟨h₁, h₂, h₃, h₄, h₅, h₆⟩ := hop
  simp only [StepCondition.evaluate, hp, hf, h₁, h₂, h₃, h₄, h₅, h₆, if_false]

/-- C10 witness: operator `"regex"` gates the step off. -/
theorem evaluate_unknown_operator_false_witness :
    StepCondition.evaluate
      { plugin_name := "p", field := "f", operator := "regex", value := .num 1 }
      [("p", [("f", .num 2)])] = .ok false :=
  evaluate_unknown_operator_false
    { plugin_name := "p", field := "f", operator := "regex", value := .num 1 }
    [("p", [("f", .num 2)])] [("f", .num 2)] (.num 2)
    (by decide) rfl rfl

/-! ## Retry backoff (claim C5) -/

/-- The delays slept by the retry loop from `attempt` on (with `left`
remaining iterations) form an initial segment of the full schedule
`min(base_delay * exponential_base ^ (attempt - 1 + j), max_delay)`. -/
theorem retryGo_delays_front (cfg : RetryConfig) (body : ℕ → Except PluginError PyDict)
    (pname : String) :
    ∀ (left attempt : ℕ) (e : PluginError), 1 ≤ attempt →
      (retryGo cfg body pname left attempt e).2 <+:
        (List.range left).map
          (fun j => min (cfg.base_delay * cfg.exponential_base ^ (attempt - 1 + j))
            cfg.max_delay) := by
  intro left
  induction left with
  | zero => intro attempt e _; exact ⟨[], rfl⟩
  | succ n ih =>
    intro attempt e ha
    have hsplit :
        (List.range (n + 1)).map
            (fun j => min (cfg.base_delay * cfg.exponential_base ^ (attempt - 1 + j))
              cfg.max_delay)
          = min (cfg.base_delay * cfg.exponential_base ^ (attempt - 1)) cfg.max_delay ::
            (List.range n).map
              (fun j => min (cfg.base_delay * cfg.exponential_base ^ (attempt + 1 - 1 + j))
                cfg.max_delay) := by
      rw [List.range_succ_eq_map, List.map_cons, List.map_map]
      refine congrArg₂ _ (by rw [Nat.add_zero]) ?_
      refine List.map_congr_left (fun j _ => ?_)
      have hj : attempt - 1 + (j + 1) = attempt + 1 - 1 + j := by omega
      simp [Function.comp, hj]
    rw [hsplit, retryGo_succ]
    simp only [retryGoStep]
    cases hb : body (attempt + 1) with
    | ok r => exact ⟨_, rfl⟩
    | error e₂ =>
      by_cases hr : isErrorRetryable e₂
      · simp only [hr, if_true]
        obtain ⟨t, ht⟩ := ih (attempt + 1) e₂ (by omega)
        rcases hrg : retryGo cfg body pname n (attempt + 1) e₂ with ⟨out, delays⟩
        rw [hrg] at ht
        refine ⟨t, ?_⟩
        simp only [List.cons_append]
        exact congrArg _ ht
      · simp only [hr, if_false]
        exact ⟨_, rfl⟩

/-- C5: the delay slept before retry attempt `k = i + 2` (the `i`-th slept
delay, 0-based) is `min(base_delay * exponential_base ^ (k - 2), max_delay)`;
concretely, with `base_delay = 1`, `exponential_base = 2`, `max_delay = 30`
the delays before attempts 2..5 under `max_attempts = 5` are `1, 2, 4, 8`,
and under `max_attempts = 7` the delay before attempt 7 clamps to `30`. -/
theorem retry_backoff_delays :
    (∀ (cfg : RetryConfig) (body : ℕ → Except PluginError PyDict) (pname : String)
       (e : PluginError) (i : ℕ) (d : ℚ),
       ((retryExecution cfg body pname e).2)[i]? = some d →
       d = min (cfg.base_delay * cfg.exponential_base ^ i) cfg.max_delay)
    ∧ (retryExecution { max_attempts := 5 } alwaysNetworkFail "p" netErr).2 = [1, 2, 4, 8]
    ∧ (retryExecution { max_attempts := 7 } alwaysNetworkFail "p" netErr).2
        = [1, 2, 4, 8, 16, 30] := by
  refine ⟨?_, ?_, ?_⟩
  · intro cfg body pname e i d hd
    simp only [retryExecution] at hd
    have hpre := retryGo_delays_front cfg body pname (cfg.max_attempts - 1) 1 e (le_refl 1)
    have harith : ∀ j : ℕ, 1 - 1 + j = j := by omega
    simp only [harith] at hpre
    obtain ⟨t, ht⟩ := hpre
    have hlt : i < (retryGo cfg body pname (cfg.max_attempts - 1) 1 e).2.length := by
      by_contra hge
      rw [List.getElem?_eq_none (by omega)] at hd
      exact Option.noConfusion hd
    have hsched :
        ((List.range (cfg.max_attempts - 1)).map
          (fun j => min (cfg.base_delay * cfg.exponential_base ^ j) cfg.max_delay))[i]?
          = some d := by
      rw [← ht, List.getElem?_append, if_pos hlt]
      exact hd
    rw [List.getElem?_map] at hsched
    cases hr : (List.range (cfg.max_attempts - 1))[i]? with
    | none => rw [hr] at hsched; exact Option.noConfusion hsched
    | some j =>
      rw [hr] at hsched
      have hi : i < cfg.max_attempts - 1 := by
        by_contra hni
        rw [List.getElem?_eq_none (by rw [List.length_range]; omega)] at hr
        exact Option.noConfusion hr
      have hj : j = i := by
        rw [List.getElem?_range hi] at hr
        exact ((Option.some.injEq _ _).mp hr).symm
      subst hj
      simp only [Option.map_some'] at hsched
      exact ((Option.some.injEq _ _).mp hsched).symm
  · norm_num [retryExecution, retryGo_succ, retryGo_zero, retryGoStep, isErrorRetryable,
      alwaysNetworkFail, netErr, min_def]
  · norm_num [retryExecution, retryGo_succ, retryGo_zero, retryGoStep, isErrorRetryable,
      alwaysNetworkFail, netErr, min_def]

/-- C5 witness: the third slept delay under the default base/exponent is
`min(1 * 2 ^ 2, 30) = 4`. -/
theorem retry_backoff_delays_witness :
    (4 : ℚ) = min ((1 : ℚ) * 2 ^ 2) 30 :=
  retry_backoff_delays.1 { max_attempts := 5 } alwaysNetworkFail "p" netErr 2 4
    (by rw [retry_backoff_delays.2.1]; rfl)

/-! ## `run_plugin` dependency-failure behaviour (claims C1, C3) -/

/-- C1: in the registry where `p` non-optionally requires `d` and `d`'s
body raises a (retryable-kind) `PluginError`, `run_plugin("p")` does NOT
abort: the recursive dependency call is the same top-level entry point,
which converts `d`'s failure into a returned `{"success": False}` dict, so
the dependent's own body still runs (the invocation trace is
`["d", "p"]`) and the overall call reports `success = True`, with `d`'s
failure recorded only under `"d_results"`. -/
theorem run_plugin_required_dep_body_failure_swallowed :
    (runPlugin mgrReqDep 20 "p" Option.none Option.none 0).map
      (fun o => (successFlag o.1, raisedCode o.1, o.2.2)) =
      some (some true, Option.none, ["d", "p"]) ∧
    (runPlugin mgrReqDep 20 "p" Option.none Option.none 0).map
      (fun o => match o.1 with
        | .ok d =>
          match dictGet d "d_results" with
          | some (.dict dr) => dictGet dr "success"
          | _ => Option.none
        | .error _ => Option.none) = some (some (.bool false)) :=
  ⟨rfl, rfl⟩

/-- C3 (counterexample): in the registry where `P` requires `C` then `D`
and `D`'s required dependency `E` is unregistered, `run_plugin("P")` raises
a `DEPENDENCY_ERROR` only after `C`'s body has already executed (the
invocation trace at the raise is `["C"]`) — integrity failures of nested
dependencies are NOT always raised before any plugin body executes. -/
theorem run_plugin_integrity_error_after_dep_body_ran :
    (runPlugin mgrNested 20 "P" Option.none Option.none 0).map
      (fun o => (raisedCode o.1, o.2.2)) =
      some (some .dependency, ["C"]) :=
  rfl

/-! ## Workflow execution behaviour (claims C2, C8) -/

/-- C2: running the `[A, failing, C]` workflow where `failing`'s body
raises a `PluginError` does not stop at the failing step: `run_plugin`
swallows the body error into a `{"success": False}` result dict, so the
step is marked COMPLETED, the loop continues, every step ends COMPLETED,
`current_step` ends at 3, the workflow ends COMPLETED, and the run call
returns normally. -/
theorem workflow_run_body_failure_continues :
    (Workflow.run mgrABC 20 wfAFC Option.none 0).map
      (fun o => (stepStatuses o.1, o.1.current_step, o.1.status, wfReturned o.2.1)) =
      some ([.completed, .completed, .completed], 3, .completed, true) :=
  rfl

/-- C8 (counterexample): in the run of a workflow whose first step is
skipped by its condition and whose second step executes, the skip
transition is not followed by any `save_state` call before the next step's
status changes — the emitted event trace violates the
persisted-after-every-step-status-change property. -/
theorem workflow_skip_transition_not_persisted :
    (Workflow.run mgrABC 20 wfSkipThenRun Option.none 0).map
      (fun o => (o.2.2.1, savedAfterEveryStepChange o.2.2.1)) =
      some ([.wfStatus .running, .stepStatus 0 .skipped, .stepStatus 1 .running,
             .stepStatus 1 .completed, .save, .wfStatus .completed, .save], false) :=
  rfl

/-! ## Persistence points of the run loop (claim C8, amended) -/

/-- Every completed run of the loop (with `data_dir` set) emits a trace of
the `StepsTraceOK` shape: a save after each executed step's terminal
status, two saves on the failure exit, a save at termination — and none
tied to a skip. -/
theorem runLoop_trace_shape (m : Manager) (pfuel : ℕ) :
    ∀ (gas : ℕ) (w : Workflow ℕ) (tick : ℕ)
      (out : Workflow ℕ × Except RunErr (List (String × PyDict)) × List WEvent × ℕ),
      w.data_dir.isSome = true → runLoop m pfuel gas w tick = some out →
      StepsTraceOK out.2.2.1 := by
  intro gas
  induction gas with
  | zero =>
    intro w tick out _ h
    rw [runLoop_zero] at h
    exact Option.noConfusion h
  | succ n ih =>
    intro w tick out hdd h
    rw [runLoop_succ] at h
    by_cases hlt : w.current_step < w.steps.length
    · simp only [runLoopStep, dif_pos hlt] at h
      cases heval : (w.steps.get ⟨w.current_step, hlt⟩).should_run w.results with
      | error te =>
        simp only [heval, doSave, hdd, if_true] at h
        obtain rfl := Option.some.inj h
        exact StepsTraceOK.condFail
      | ok b =>
        cases b with
        | false =>
          simp only [heval] at h
          split at h
          · exact Option.noConfusion h
          · rename_i w' out' evs tick' heq
            obtain rfl := Option.some.inj h
            exact StepsTraceOK.skip _ _ (ih _ _ _ (by simpa using hdd) heq)
        | true =>
          simp only [heval] at h
          split at h
          · exact Option.noConfusion h
          · rename_i result tick₂ tr hrp
            simp only [doSave, hdd, if_true] at h
            split at h
            · exact Option.noConfusion h
            · rename_i w' out' evs tick' heq
              obtain rfl := Option.some.inj h
              exact StepsTraceOK.okStep _ _ (ih _ _ _ (by simpa using hdd) heq)
          · rename_i e tick₂ tr hrp
            simp only [doSave, hdd, if_true] at h
            obtain rfl := Option.some.inj h
            exact StepsTraceOK.failStep _
    · simp only [runLoopStep, dif_neg hlt, doSave, hdd, if_true] at h
      obtain rfl := Option.some.inj h
      exact StepsTraceOK.done

/-- C8 (amended): during `Workflow.run` on a workflow with `data_dir` set,
the state is persisted after every EXECUTED step's terminal status change
(completion, and twice on failure) and at run termination, but a step
marked Skipped — like the transient Running mark — does not trigger its
own `save_state` call. -/
theorem run_persists_after_executed_steps (m : Manager) (pfuel : ℕ) (w : Workflow ℕ)
    (rf : Option ℕ) (tick : ℕ)
    (out : Workflow ℕ × Except RunErr (List (String × PyDict)) × List WEvent × ℕ)
    (hdd : w.data_dir.isSome = true)
    (hrun : Workflow.run m pfuel w rf tick = some out) :
    ∃ evs, out.2.2.1 = .wfStatus .running :: evs ∧ StepsTraceOK evs := by
  cases rf <;>
  · simp only [Workflow.run] at hrun
    split at hrun
    · exact Option.noConfusion hrun
    · rename_i w' out' evs tick' heq
      obtain rfl := Option.some.inj hrun
      exact ⟨_, rfl, runLoop_trace_shape m pfuel _ _ _ _ (by simpa using hdd) heq⟩

/-- C8 amended witness: the skip-then-run scenario. -/
theorem run_persists_after_executed_steps_witness :
    ∃ evs,
      ([.wfStatus .running, .stepStatus 0 .skipped, .stepStatus 1 .running,
        .stepStatus 1 .completed, .save, .wfStatus .completed, .save] : List WEvent) =
        .wfStatus .running :: evs ∧ StepsTraceOK evs :=
  run_persists_after_executed_steps mgrABC 20 wfSkipThenRun Option.none 0 _ rfl rfl

/-! ## `run_plugin` error discipline (claim C3, amended) -/

/-- Exceptions from `_validate_dependencies` carry `DEPENDENCY_ERROR`. -/
theorem validate_dependencies_code (m : Manager) (name : String) (e : PluginError)
    (h : m.validate_dependencies name = some e) : e.code = .dependency := by
  unfold Manager.validate_dependencies at h
  split at h
  · exact (Option.some.inj h) ▸ rfl
  · split at h
    · exact (Option.some.inj h) ▸ rfl
    · exact Option.noConfusion h

/-- Exceptions from `_detect_circular_dependencies` carry
`DEPENDENCY_ERROR`. -/
theorem detect_circular_code (m : Manager) (fuel : ℕ) (name : String) (e : PluginError)
    (h : m.detect_circular fuel name = some (some e)) : e.code = .dependency := by
  unfold Manager.detect_circular at h
  split at h
  · exact Option.noConfusion h
  · exact Option.noConfusion (Option.some.inj h)
  · exact (Option.some.inj (Option.some.inj h)) ▸ rfl

/-- With a constant failing body, the retry loop never returns success. -/
theorem retryGo_const_error (cfg : RetryConfig) (pname : String) (e : PluginError) :
    ∀ (left attempt : ℕ) (e₀ : PluginError),
      ∃ e₂, (retryGo cfg (fun _ => .error e) pname left attempt e₀).1 = .error e₂ := by
  intro left
  induction left with
  | zero => intro attempt e₀; exact ⟨_, rfl⟩
  | succ n ih =>
    intro attempt e₀
    rw [retryGo_succ]
    simp only [retryGoStep]
    by_cases hr : isErrorRetryable e
    · simp only [hr, if_true]
      obtain ⟨e₂, he₂⟩ := ih (attempt + 1) e
      rcases hrg : retryGo cfg (fun _ => .error e) pname n (attempt + 1) e with ⟨out, delays⟩
      rw [hrg] at he₂
      exact ⟨e₂, he₂⟩
    · simp only [hr, if_false]
      exact ⟨e, rfl⟩

/-- If the (configured) plugin body fails, the body section returns the
literal `{"success": False, "error": ...}` dict of the outermost `except`
clause. -/
theorem runBodySection_failure (plugin : PluginDef) (rc : Option RetryConfig)
    (results : PyDict) (tick : ℕ) (e : PluginError)
    (hb : plugin.runBody plugin.config = .error e) :
    ∃ e₂, (runBodySection plugin rc results tick).1 = failureDict e₂ := by
  unfold runBodySection
  rw [hb]
  cases rc with
  | none => exact ⟨e, rfl⟩
  | some cfg =>
    by_cases hr : isErrorRetryable e
    · simp only [hr, if_true]
      obtain ⟨e₂, he₂⟩ :=
        retryGo_const_error cfg plugin.pname e (cfg.max_attempts - 1) 1 e
      rcases hrg : retryExecution cfg (fun _ => .error e) plugin.pname e with ⟨out, delays⟩
      have hout : out = .error e₂ := by
        have h₃ : (retryExecution cfg (fun _ => .error e) plugin.pname e).1 = .error e₂ := he₂
        rw [hrg] at h₃
        exact h₃
      rw [hout]
      exact ⟨e₂, rfl⟩
    · simp only [hr, if_false]
      exact ⟨e, rfl⟩

/-- Every exception escaping `run_plugin` (or its dependency loop) carries
`DEPENDENCY_ERROR`: the body section never raises, so only the
fail-fast lookup, `_validate_dependencies`, `_detect_circular_dependencies`
and re-raised required-dependency errors escape. -/
theorem runPair_error_code (m : Manager) :
    ∀ fuel : ℕ,
      (∀ (name : String) (config : Option PyDict) (rc : Option RetryConfig) (tick : ℕ)
         (e : PluginError) (t : ℕ) (tr : List String),
         runPlugin m fuel name config rc tick = some (.error e, t, tr) →
         e.code = .dependency) ∧
      (∀ (name : String) (deps : List PluginDependency) (results : PyDict) (tick : ℕ)
         (trace : List String) (e : PluginError) (t : ℕ) (tr : List String),
         runDeps m fuel name deps results tick trace = some (.error e, t, tr) →
         e.code = .dependency) := by
  intro fuel
  induction fuel with
  | zero =>
    constructor
    · intro name config rc tick e t tr h
      rw [runPlugin_zero] at h
      exact Option.noConfusion h
    · intro name deps results tick trace e t tr h
      rw [runDeps_zero] at h
      exact Option.noConfusion h
  | succ n ih =>
    obtain ⟨ihP, ihD⟩ := ih
    constructor
    · intro name config rc tick e t tr h
      rw [runPlugin_succ] at h
      split at h
      · simp only [Option.some.injEq, Prod.mk.injEq, Except.error.injEq] at h
        obtain ⟨rfl, -, -⟩ := h
        rfl
      · rename_i plugin hg
        split at h
        · rename_i e₁ hv
          simp only [Option.some.injEq, Prod.mk.injEq, Except.error.injEq] at h
          obtain ⟨rfl, -, -⟩ := h
          exact validate_dependencies_code m name _ hv
        · split at h
          · exact Option.noConfusion h
          · rename_i e₁ hd
            simp only [Option.some.injEq, Prod.mk.injEq, Except.error.injEq] at h
            obtain ⟨rfl, -, -⟩ := h
            exact detect_circular_code m (n + 1) name _ hd
          · split at h
            · exact Option.noConfusion h
            · rename_i e₁ tick₁ trace₁ hdeps
              simp only [Option.some.injEq, Prod.mk.injEq, Except.error.injEq] at h
              obtain ⟨rfl, -, -⟩ := h
              exact ihD _ _ _ _ _ _ _ _ hdeps
            · rename_i results₁ tick₁ trace₁ hdeps
              rcases hbs : runBodySection (applyConfig plugin config) rc results₁ tick₁
                with ⟨res, tick₄, k⟩
              rw [hbs] at h
              simp only [Option.some.injEq, Prod.mk.injEq] at h
              exact absurd h.1 (fun hc => Except.noConfusion hc)
    · intro name deps results tick trace e t tr h
      cases deps with
      | nil =>
        rw [runDeps_succ_nil] at h
        simp only [Option.some.injEq, Prod.mk.injEq] at h
        exact absurd h.1 (fun hc => Except.noConfusion hc)
      | cons dep rest =>
        rw [runDeps_succ_cons] at h
        split at h
        · simp only [Option.some.injEq, Prod.mk.injEq, Except.error.injEq] at h
          obtain ⟨rfl, -, -⟩ := h
          rfl
        · split at h
          · exact Option.noConfusion h
          · exact ihD _ _ _ _ _ _ _ _ h
          · rename_i e₁ tick₁ tr₁ hr
            split at h
            · exact ihD _ _ _ _ _ _ _ _ h
            · simp only [Option.some.injEq, Prod.mk.injEq, Except.error.injEq] at h
              obtain ⟨rfl, -, -⟩ := h
              exact ihP _ _ _ _ _ _ _ hr

/-- C3 (amended): (i) a plugin body failure (here under the configured
body, with retries — if configured — exhausted by the deterministic body)
makes the top-level `run_plugin` RETURN a dict with `success = False` and
an `error` record rather than raise; (ii) every exception that does escape
`run_plugin` carries `DEPENDENCY_ERROR` (unknown plugin, missing required
dependency, cycle, or such an error re-raised from a required dependency) —
but, per the counterexample, such an exception may surface only after an
earlier-listed dependency's body has already executed. -/
theorem run_plugin_error_contract :
    (∀ (m : Manager) (fuel : ℕ) (name : String) (config : Option PyDict)
       (rc : Option RetryConfig) (tick : ℕ) (e : PluginError) (t : ℕ) (tr : List String),
       runPlugin m fuel name config rc tick = some (.error e, t, tr) →
       e.code = .dependency) ∧
    (∀ (m : Manager) (fuel : ℕ) (name : String) (config : Option PyDict)
       (rc : Option RetryConfig) (tick : ℕ) (plugin : PluginDef) (e : PluginError)
       (d : PyDict) (t : ℕ) (tr : List String),
       m.get_plugin name = some plugin →
       (applyConfig plugin config).runBody (applyConfig plugin config).config = .error e →
       runPlugin m fuel name config rc tick = some (.ok d, t, tr) →
       dictGet d "success" = some (.bool false) ∧ (dictGet d "error").isSome = true) := by
  constructor
  · intro m fuel name config rc tick e t tr h
    exact (runPair_error_code m fuel).1 name config rc tick e t tr h
  · intro m fuel name config rc tick plugin e d t tr hg hb h
    cases fuel with
    | zero =>
      rw [runPlugin_zero] at h
      exact Option.noConfusion h
    | succ n =>
      rw [runPlugin_succ] at h
      simp only [hg] at h
      split at h
      · simp at h
      · split at h
        · exact Option.noConfusion h
        · simp at h
        · split at h
          · exact Option.noConfusion h
          · simp at h
          · rename_i results₁ tick₁ trace₁ hdeps
            obtain ⟨e₂, he₂⟩ :=
              runBodySection_failure (applyConfig plugin config) rc results₁ tick₁ e hb
            rcases hbs : runBodySection (applyConfig plugin config) rc results₁ tick₁
              with ⟨res, tick₄, k⟩
            rw [hbs] at h he₂
            have he₃ : res = failureDict e₂ := he₂
            simp only [Option.some.injEq, Prod.mk.injEq, Except.ok.injEq] at h
            obtain ⟨rfl, -, -⟩ := h
            rw [he₃]
            exact ⟨rfl, rfl⟩

/-- C3 witness: part (ii) at the registry where `d`'s body raises a
network error (the returned dict is the literal failure dict), and part (i)
at the nested-missing-dependency registry. -/
theorem run_plugin_error_contract_witness :
    (dependencyError "Required plugin E for D not found" "D"
      [("missing_dependency", Val.str "E")]).code = ErrorCode.dependency ∧
    (dictGet (failureDict { code := .network, message := "boom", plugin_name := "d" })
        "success" = some (.bool false) ∧
      (dictGet (failureDict { code := .network, message := "boom", plugin_name := "d" })
        "error").isSome = true) :=
  ⟨run_plugin_error_contract.1 mgrNested 20 "P" Option.none Option.none 0 _ 2 ["C"] rfl,
   run_plugin_error_contract.2 mgrReqDep 20 "d" Option.none Option.none 0 _ _ _ 1 ["d"]
     rfl rfl rfl⟩

/-! ## Cycle detection (claim C4) -/

/-- `path.index(a)` is in range and splits the list at the first
occurrence. -/
theorem idxOf_spec (a : String) :
    ∀ l : List String, a ∈ l →
      idxOf a l < l.length ∧ l.drop (idxOf a l) = a :: l.drop (idxOf a l + 1) := by
  intro l
  induction l with
  | nil => intro h; cases h
  | cons b bs ih =>
    intro h
    by_cases hb : b = a
    · subst hb; simp [idxOf]
    · have hmem : a ∈ bs := by
        cases h with
        | head => exact absurd rfl hb
        | tail _ h₂ => exact h₂
      obtain ⟨h₁, h₂⟩ := ih hmem
      constructor
      · simp only [idxOf, hb, if_false, List.length_cons]; omega
      · simp only [idxOf, hb, if_false, List.drop_succ_cons]
        exact h₂

/-- Dropping preserves `Chain'`. -/
theorem chain'_drop {α : Type} (R : α → α → Prop) :
    ∀ (k : ℕ) (l : List α), l.Chain' R → (l.drop k).Chain' R := by
  intro k
  induction k with
  | zero => intro l h; exact h
  | succ n ih =>
    intro l h
    rw [← List.tail_drop]
    exact (ih l h).tail

/-- Soundness of the DFS walk: an error payload is a genuine ordered cycle
(length at least two, equal endpooints, consecutive dependency edges),
provided the path-plus-current-node forms an edge chain (as every
recursive call maintains). -/
theorem visit_error_good (g : List (String × List String)) :
    ∀ fuel : ℕ,
      (∀ (node : String) (visited path : List String) (c : List String),
        visit g fuel node visited path = some (.error c) →
        List.Chain' (Edge g) (path ++ [node]) →
        2 ≤ c.length ∧ c.head? = c.getLast? ∧ List.Chain' (Edge g) c) ∧
      (∀ (ds visited path : List String) (c : List String),
        visitList g fuel ds visited path = some (.error c) →
        List.Chain' (Edge g) path →
        (∀ d ∈ ds, ∀ a, path.getLast? = some a → Edge g a d) →
        2 ≤ c.length ∧ c.head? = c.getLast? ∧ List.Chain' (Edge g) c) := by
  intro fuel
  induction fuel with
  | zero =>
    constructor
    · intro node visited path c h _
      rw [visit_zero] at h
      exact Option.noConfusion h
    · intro ds visited path c h _ _
      rw [visitList_zero] at h
      exact Option.noConfusion h
  | succ n ih =>
    obtain ⟨ihV, ihL⟩ := ih
    constructor
    · intro node visited path c h hch
      rw [visit_succ] at h
      by_cases hp : node ∈ path
      · rw [if_pos hp] at h
        obtain rfl := Except.error.inj (Option.some.inj h)
        obtain ⟨hlt, hdropeq⟩ := idxOf_spec node path hp
        refine ⟨?_, ?_, ?_⟩
        · rw [hdropeq, List.cons_append, List.length_cons, List.length_append]
          simp
        · rw [hdropeq, List.getLast?_concat]
          rfl
        · have heq : path.drop (idxOf node path) ++ [node]
              = (path ++ [node]).drop (idxOf node path) := by
            rw [List.drop_append_of_le_length (le_of_lt hlt)]
          rw [heq]
          exact chain'_drop _ _ _ hch
      · rw [if_neg hp] at h
        by_cases hv : node ∈ visited
        · rw [if_pos hv] at h
          exact Except.noConfusion (Option.some.inj h)
        · rw [if_neg hv] at h
          refine ihL _ _ _ _ h hch ?_
          intro d hd a ha
          rw [List.getLast?_concat] at ha
          obtain rfl := Option.some.inj ha
          exact hd
    · intro ds visited path c h hch hlast
      cases ds with
      | nil =>
        rw [visitList_succ_nil] at h
        exact Except.noConfusion (Option.some.inj h)
      | cons d ds₁ =>
        rw [visitList_succ_cons] at h
        cases hv : visit g n d visited path with
        | none => rw [hv] at h; exact Option.noConfusion h
        | some r =>
          rw [hv] at h
          cases r with
          | error c₁ =>
            obtain rfl := Except.error.inj (Option.some.inj h)
            refine ihV d visited path _ hv ?_
            rw [List.chain'_append]
            refine ⟨hch, List.chain'_singleton d, ?_⟩
            intro x hx y hy
            simp only [List.head?_cons, Option.mem_def, Option.some.injEq] at hy
            subst hy
            exact hlast d (List.mem_cons_self _ _) x (Option.mem_def.mp hx)
          | ok v =>
            exact ihL ds₁ v path c h hch
              (fun d₁ hd₁ => hlast d₁ (List.mem_cons_of_mem _ hd₁))

/-- Completeness of the DFS walk: a successful visit only grows the visited
set, keeps the invariant, and finishes the visited node off the path. -/
theorem visit_ok_inv (g : List (String × List String)) :
    ∀ fuel : ℕ,
      (∀ (node : String) (visited path v : List String),
        visit g fuel node visited path = some (.ok v) →
        DfsInv g visited path →
        (∀ x ∈ visited, x ∈ v) ∧ DfsInv g v path ∧ node ∈ v ∧ node ∉ path) ∧
      (∀ (ds visited path v : List String),
        visitList g fuel ds visited path = some (.ok v) →
        DfsInv g visited path →
        (∀ x ∈ visited, x ∈ v) ∧ DfsInv g v path ∧ ∀ d ∈ ds, d ∈ v ∧ d ∉ path) := by
  intro fuel
  induction fuel with
  | zero =>
    constructor
    · intro node visited path v h _
      rw [visit_zero] at h
      exact Option.noConfusion h
    · intro ds visited path v h _
      rw [visitList_zero] at h
      exact Option.noConfusion h
  | succ n ih =>
    obtain ⟨ihV, ihL⟩ := ih
    constructor
    · intro node visited path v h hinv
      rw [visit_succ] at h
      by_cases hp : node ∈ path
      · rw [if_pos hp] at h
        exact Except.noConfusion (Option.some.inj h)
      · rw [if_neg hp] at h
        by_cases hvtd : node ∈ visited
        · rw [if_pos hvtd] at h
          obtain rfl := Except.ok.inj (Option.some.inj h)
          exact ⟨fun x hx => hx, hinv, hvtd, hp⟩
        · rw [if_neg hvtd] at h
          have hinv' : DfsInv g (node :: visited) (path ++ [node]) := by
            constructor
            · intro a ha
              rcases List.mem_append.mp ha with ha₁ | ha₁
              · exact List.mem_cons_of_mem _ (hinv.1 a ha₁)
              · simp only [List.mem_singleton] at ha₁
                subst ha₁
                exact List.mem_cons_self _ _
            · intro b hb hbp
              have hbn : b ≠ node := fun hbe => hbp (hbe ▸ List.mem_append_right _ (List.mem_singleton.mpr rfl))
              have hbv : b ∈ visited := by
                cases hb with
                | head => exact absurd rfl hbn
                | tail _ h₂ => exact h₂
              have hbp₀ : b ∉ path := fun hc => hbp (List.mem_append_left _ hc)
              obtain ⟨hsuc, hnt⟩ := hinv.2 b hbv hbp₀
              refine ⟨?_, hnt⟩
              intro d hd
              obtain ⟨hd₁, hd₂⟩ := hsuc d hd
              refine ⟨List.mem_cons_of_mem _ hd₁, ?_⟩
              intro hc
              rcases List.mem_append.mp hc with hc₁ | hc₁
              · exact hd₂ hc₁
              · simp only [List.mem_singleton] at hc₁
                subst hc₁
                exact hvtd hd₁
          obtain ⟨hsub, hinvv, hdeps⟩ := ihL _ _ _ _ h hinv'
          have hnodev : node ∈ v := hsub node (List.mem_cons_self _ _)
          have hpathsub : ∀ a ∈ path, a ∈ path ++ [node] := fun a ha => List.mem_append_left _ ha
          refine ⟨fun x hx => hsub x (List.mem_cons_of_mem _ hx), ?_, hnodev, hp⟩
          constructor
          · intro a ha
            exact hinvv.1 a (hpathsub a ha)
          · intro b hb hbp
            by_cases hbn : b = node
            · subst hbn
              constructor
              · intro d hd
                obtain ⟨hd₁, hd₂⟩ := hdeps d hd
                exact ⟨hd₁, fun hc => hd₂ (hpathsub d hc)⟩
              · intro htg
                obtain ⟨c, hed, hrt⟩ := Relation.TransGen.head'_iff.mp htg
                rcases Relation.reflTransGen_iff_eq_or_transGen.mp hrt with hbc | htc
                · subst hbc
                  exact (hdeps b hed).2 (List.mem_append_right _ (List.mem_singleton.mpr rfl))
                · obtain ⟨hcv, hcp⟩ := hdeps c hed
                  obtain ⟨-, hnt⟩ := hinvv.2 c hcv hcp
                  exact hnt (htc.trans (Relation.TransGen.single hed))
            · have hbp' : b ∉ path ++ [node] := by
                intro hc
                rcases List.mem_append.mp hc with hc₁ | hc₁
                · exact hbp hc₁
                · simp only [List.mem_singleton] at hc₁
                  exact hbn hc₁
              obtain ⟨hsuc, hnt⟩ := hinvv.2 b hb hbp'
              refine ⟨?_, hnt⟩
              intro d hd
              obtain ⟨hd₁, hd₂⟩ := hsuc d hd
              exact ⟨hd₁, fun hc => hd₂ (hpathsub d hc)⟩
    · intro ds visited path v h hinv
      cases ds with
      | nil =>
        rw [visitList_succ_nil] at h
        obtain rfl := Except.ok.inj (Option.some.inj h)
        exact ⟨fun x hx => hx, hinv, fun d hd => absurd hd (List.not_mem_nil d)⟩
      | cons d ds₁ =>
        rw [visitList_succ_cons] at h
        cases hvis : visit g n d visited path with
        | none => rw [hvis] at h; exact Option.noConfusion h
        | some r =>
          rw [hvis] at h
          cases r with
          | error c => exact Except.noConfusion (Option.some.inj h)
          | ok v₁ =>
            obtain ⟨hsub₁, hinv₁, hdv, hdp⟩ := ihV d visited path v₁ hvis hinv
            obtain ⟨hsub₂, hinv₂, hrest⟩ := ihL ds₁ v₁ path v h hinv₁
            refine ⟨fun x hx => hsub₂ x (hsub₁ x hx), hinv₂, ?_⟩
            intro d₁ hd₁
            cases hd₁ with
            | head => exact ⟨hsub₂ d hdv, hdp⟩
            | tail _ h₂ => exact hrest d₁ h₂

/-- A DFS walk that returns normally from an empty initial state rules out
every cycle reachable from the start node. -/
theorem visit_ok_no_cycle (g : List (String × List String)) (fuel : ℕ)
    (x : String) (v : List String) (h : visit g fuel x [] [] = some (.ok v)) :
    ¬ CycleReachable g x := by
  obtain ⟨hsub, hinv, hx, -⟩ := (visit_ok_inv g fuel).1 x [] [] v h
    ⟨fun a ha => absurd ha (List.not_mem_nil a),
     fun b hb _ => absurd hb (List.not_mem_nil b)⟩
  · have hclosed : ∀ c, Relation.ReflTransGen (Edge g) x c → c ∈ v := by
      intro c hreach
      induction hreach with
      | refl => exact hx
      | tail _ he ihr =>
        exact ((hinv.2 _ ihr (List.not_mem_nil _)).1 _ he).1
    rintro ⟨c, hreach, hcyc⟩
    exact (hinv.2 c (hclosed c hreach) (List.not_mem_nil c)).2 hcyc

/-- C4: in every registry whose required-dependency graph has a cycle
reachable from plugin `x`, `_detect_circular_dependencies(x)` (at any fuel
at which it terminates) raises a `PluginDependencyError` whose context
carries the cycle members as an ordered list — at least two names, equal
endpoints, consecutive entries joined by dependency edges; and on the
diamond registry (A requires B and C, B and C both require D) it raises
nothing. -/
theorem detect_cycles_spec :
    (∀ (m : Manager) (x : String) (fuel : ℕ) (r : Option PluginError),
      CycleReachable m.graph x → m.detect_circular fuel x = some r →
      ∃ (e : PluginError) (cycle : List String),
        r = some e ∧ e.code = .dependency ∧
        e.context = [("dependency_cycle", Val.list (cycle.map Val.str))] ∧
        2 ≤ cycle.length ∧ cycle.head? = cycle.getLast? ∧
        List.Chain' (Edge m.graph) cycle) ∧
    mgrDiamond.detect_circular 10 "A" = some Option.none := by
  constructor
  · intro m x fuel r hcyc hdet
    unfold Manager.detect_circular at hdet
    cases hv : visit m.graph fuel x [] [] with
    | none => rw [hv] at hdet; exact Option.noConfusion hdet
    | some res =>
      rw [hv] at hdet
      cases res with
      | ok v => exact absurd hcyc (visit_ok_no_cycle m.graph fuel x v hv)
      | error c =>
        obtain rfl := Option.some.inj hdet
        obtain ⟨h₁, h₂, h₃⟩ := (visit_error_good m.graph fuel).1 x [] [] c hv
          (by simp)
        exact ⟨_, c, rfl, rfl, rfl, h₁, h₂, h₃⟩
  · rfl

/-- C4 at the registry with the cycle `y → z → y` reachable from `x`:
the raised error carries an ordered, edge-connected cycle. -/
theorem detect_cycles_spec_witness :
    ∃ (e : PluginError) (cycle : List String),
      (some (dependencyError
        ("Circular dependency detected: " ++ String.intercalate " -> " ["y", "z", "y"]) "x"
        [("dependency_cycle", Val.list (List.map Val.str ["y", "z", "y"]))])
        : Option PluginError) = some e ∧
      e.code = .dependency ∧
      e.context = [("dependency_cycle", Val.list (cycle.map Val.str))] ∧
      2 ≤ cycle.length ∧ cycle.head? = cycle.getLast? ∧
      List.Chain' (Edge mgrCyc.graph) cycle :=
  detect_cycles_spec.1 mgrCyc "x" 10 _
    ⟨"y",
     Relation.ReflTransGen.single (show "y" ∈ graphDeps mgrCyc.graph "x" by decide),
     Relation.TransGen.head (show "z" ∈ graphDeps mgrCyc.graph "y" by decide)
       (Relation.TransGen.single (show "y" ∈ graphDeps mgrCyc.graph "z" by decide))⟩
    rfl

/-! ## Persistence round-trip (claim C6): decimal digit strings -/

/-- Accumulator parsing distributes over append. -/
theorem parseDigitsAux_append (l₁ : List Char) :
    ∀ (acc : ℕ) (l₂ : List Char),
      parseDigitsAux acc (l₁ ++ l₂) = parseDigitsAux (parseDigitsAux acc l₁) l₂ := by
  induction l₁ with
  | nil => intro acc l₂; rfl
  | cons c cs ih => intro acc l₂; exact ih (10 * acc + digitVal c) l₂

/-- `digitVal` inverts `digitChar10` on actual digits. -/
theorem digitVal_digitChar10 (n : ℕ) (h : n < 10) : digitVal (digitChar10 n) = n := by
  interval_cases n <;> rfl

/-- Every emitted digit character is a digit. -/
theorem digitChar10_isDigit (n : ℕ) : (digitChar10 n).isDigit = true := by
  match n with
  | 0 | 1 | 2 | 3 | 4 | 5 | 6 | 7 | 8 => rfl
  | n + 9 => rfl

/-- Parsing the digits of `n` recovers `n` (with the accumulator shifted). -/
theorem parseDigitsAux_natToDigits :
    ∀ n acc : ℕ, parseDigitsAux acc (natToDigits n) = acc * 10 ^ (natToDigits n).length + n := by
  intro n
  induction n using Nat.strong_induction_on with
  | _ n ih =>
    intro acc
    by_cases h : n < 10
    · rw [natToDigits, dif_pos h]
      show 10 * acc + digitVal (digitChar10 n) = acc * 10 ^ [digitChar10 n].length + n
      rw [digitVal_digitChar10 n h, List.length_singleton, pow_one]
      ring
    · rw [natToDigits, dif_neg h]
      rw [parseDigitsAux_append, ih (n / 10) (Nat.div_lt_self (by omega) (by omega))]
      show 10 * (acc * 10 ^ (natToDigits (n / 10)).length + n / 10)
            + digitVal (digitChar10 (n % 10))
          = acc * 10 ^ (natToDigits (n / 10) ++ [digitChar10 (n % 10)]).length + n
      rw [digitVal_digitChar10 (n % 10) (Nat.mod_lt _ (by omega)),
          List.length_append, List.length_singleton]
      calc 10 * (acc * 10 ^ (natToDigits (n / 10)).length + n / 10) + n % 10
          = acc * (10 ^ (natToDigits (n / 10)).length * 10)
            + (10 * (n / 10) + n % 10) := by ring
        _ = acc * 10 ^ ((natToDigits (n / 10)).length + 1) + n := by
            rw [Nat.div_add_mod n 10, pow_succ]

/-- Leading zeros do not change the accumulator value apart from shifting. -/
theorem parseDigitsAux_zeros (j : ℕ) :
    ∀ acc : ℕ, parseDigitsAux acc (List.replicate j '0') = acc * 10 ^ j := by
  induction j with
  | zero => intro acc; show acc = acc * 1; ring
  | succ m ih =>
    intro acc
    rw [List.replicate_succ]
    show parseDigitsAux (10 * acc + digitVal '0') (List.replicate m '0') = acc * 10 ^ (m + 1)
    rw [ih]
    show (10 * acc + 0) * 10 ^ m = acc * 10 ^ (m + 1)
    rw [pow_succ]
    ring

/-- Parsing a zero-padded decimal print recovers the number. -/
theorem parseDigits_padDigits (k n : ℕ) : parseDigits (padDigits k n) = n := by
  unfold parseDigits padDigits
  rw [parseDigitsAux_append, parseDigitsAux_zeros, Nat.zero_mul,
      parseDigitsAux_natToDigits, Nat.zero_mul, Nat.zero_add]

/-- `n < 10 ^ k` prints in at most `k` digits (`k ≥ 1`). -/
theorem natToDigits_length_le :
    ∀ k n : ℕ, 1 ≤ k → n < 10 ^ k → (natToDigits n).length ≤ k := by
  intro k
  induction k with
  | zero => intro n h _; omega
  | succ m ih =>
    intro n _ hn
    by_cases h : n < 10
    · rw [natToDigits, dif_pos h, List.length_singleton]; omega
    · rw [natToDigits, dif_neg h, List.length_append, List.length_singleton]
      have hm : 1 ≤ m := by
        by_contra hc
        push_neg at hc
        interval_cases m
        rw [pow_one] at hn
        omega
      have hdiv : n / 10 < 10 ^ m := by
        rw [Nat.div_lt_iff_lt_mul (by omega : (0:ℕ) < 10), ← pow_succ]
        exact hn
      have := ih (n / 10) hm hdiv
      omega

/-- Every character of a decimal print is a digit. -/
theorem natToDigits_all_digits : ∀ n : ℕ, (natToDigits n).all Char.isDigit = true := by
  intro n
  induction n using Nat.strong_induction_on with
  | _ n ih =>
    by_cases h : n < 10
    · rw [natToDigits, dif_pos h]
      simp [digitChar10_isDigit]
    · rw [natToDigits, dif_neg h, List.all_append]
      simp [digitChar10_isDigit, ih (n / 10) (Nat.div_lt_self (by omega) (by omega))]

/-- A zero-padded print of `n < 10 ^ k` has exactly `k` characters. -/
theorem padDigits_length (k n : ℕ) (hk : 1 ≤ k) (hn : n < 10 ^ k) :
    (padDigits k n).length = k := by
  unfold padDigits
  rw [List.length_append, List.length_replicate]
  have := natToDigits_length_le k n hk hn
  omega

/-- A zero-padded print consists of digit characters. -/
theorem padDigits_all_digits (k n : ℕ) : (padDigits k n).all Char.isDigit = true := by
  have h := natToDigits_all_digits n
  unfold padDigits
  simp only [List.all_eq_true] at h ⊢
  intro c hc
  rcases List.mem_append.mp hc with hc₁ | hc₁
  · rw [List.eq_of_mem_replicate hc₁]; rfl
  · exact h c hc₁

/-- Reading `k` characters off a `k`-padded print recovers the number and
the rest of the input. -/
theorem readDigits_pad (k n : ℕ) (hk : 1 ≤ k) (hn : n < 10 ^ k) (rest : List Char) :
    readDigits k (padDigits k n ++ rest) = some (n, rest) := by
  have hlen := padDigits_length k n hk hn
  simp only [readDigits, List.take_left' hlen, List.drop_left' hlen]
  rw [if_pos ⟨hlen, padDigits_all_digits k n⟩, parseDigits_padDigits]

attribute [irreducible] padDigits

/-- Reduction of an `Option` bind on a present value. -/
theorem bindSomeEq {α β : Type} (a : α) (f : α → Option β) :
    (do let x ← some a; f x) = f a := rfl

/-- A fixed expected character is consumed. -/
theorem expectChar_cons (c : Char) (rest : List Char) :
    expectChar c (c :: rest) = some rest := by
  simp [expectChar]

/-- `fromisoformat` inverts `isoformat` on every datetime in Python's field
ranges (character-list level). -/
theorem parseDTChars_isoChars (d : DateTime) (hv : d.Valid) :
    parseDTChars d.isoChars = some d := by
  obtain ⟨y, mo, dy, hr, mi, s, us⟩ := d
  obtain ⟨h₁, h₂, h₃, h₄, h₅, h₆, h₇, h₈, h₉, h₁₀⟩ := hv
  have ey := readDigits_pad 4 y (by norm_num) (lt_of_le_of_lt h₂ (by norm_num))
  have emo := readDigits_pad 2 mo (by norm_num) (lt_of_le_of_lt h₄ (by norm_num))
  have edy := readDigits_pad 2 dy (by norm_num) (lt_of_le_of_lt h₆ (by norm_num))
  have ehr := readDigits_pad 2 hr (by norm_num) (lt_of_le_of_lt h₇ (by norm_num))
  have emi := readDigits_pad 2 mi (by norm_num) (lt_of_le_of_lt h₈ (by norm_num))
  have es := readDigits_pad 2 s (by norm_num) (lt_of_le_of_lt h₉ (by norm_num))
  by_cases hus : us = 0
  · subst hus
    simp only [DateTime.isoChars, eq_self_iff_true, if_true,
      List.append_assoc, List.cons_append]
    simp only [parseDTChars]
    simp only [ey, emo, edy, ehr, emi, es, expectChar_cons, bindSomeEq]
  · have eus : readDigits 6 (padDigits 6 us) = some (us, []) := by
      have := readDigits_pad 6 us (by norm_num) (lt_of_le_of_lt h₁₀ (by norm_num)) []
      rwa [List.append_nil] at this
    simp only [DateTime.isoChars, if_neg hus, List.append_assoc, List.cons_append]
    simp only [parseDTChars]
    simp only [ey, emo, edy, ehr, emi, es, eus, expectChar_cons, bindSomeEq]

/-- `fromisoformat` inverts `isoformat` (string level). -/
theorem fromisoformat_isoformat (t : DateTime) (hv : t.Valid) :
    fromisoformat (DateTime.isoformat t) = some t :=
  parseDTChars_isoChars t hv

/-- Optional dict fields survive the round trip. -/
theorem decodeOptDict_encode (o : Option PyDict) :
    decodeOptDict (some (encodeOptDict o)) = some o := by
  cases o <;> rfl

/-- Step status strings survive the round trip. -/
theorem decodeStepStatus_encode (v : WorkflowStepStatus) :
    decodeStepStatus (some (.str v.value)) = some v := by
  cases v <;> rfl

/-- Workflow status strings survive the round trip. -/
theorem wfStatusOfString_value (v : WorkflowStatus) :
    wfStatusOfString v.value = some v := by
  cases v <;> rfl

/-- Optional conditions survive the round trip. -/
theorem decodeOptCondition_encode (o : Option StepCondition) :
    decodeOptCondition (some (encodeOptCondition o)) = some o := by
  cases o <;> rfl

/-- Optional timestamps survive the round trip. -/
theorem decodeOptTime_encode (o : Option DateTime) (hv : OptValid o) :
    decodeOptTime fromisoformat (some (encodeOptTime DateTime.isoformat o)) = some o := by
  cases o with
  | none => rfl
  | some t =>
    have hp : fromisoformat (DateTime.isoformat t) = some t := fromisoformat_isoformat t hv
    simp [decodeOptTime, encodeOptTime, hp]

/-- A serialised step deserialises to itself when its timestamps are in
range. -/
theorem decodeStep_encodeStep (st : WorkflowStep DateTime)
    (h₁ : OptValid st.start_time) (h₂ : OptValid st.end_time) :
    decodeStep fromisoformat (encodeStep DateTime.isoformat st) = some st := by
  obtain ⟨pn, config, condition, status, result, error, t₁, t₂⟩ := st
  unfold encodeStep decodeStep
  simp [dictGet, decodeOptDict_encode, decodeOptCondition_encode, decodeStepStatus_encode,
    decodeOptTime_encode t₁ h₁, decodeOptTime_encode t₂ h₂]

/-- A serialised step list deserialises to itself. -/
theorem optMapM_decodeStep (steps : List (WorkflowStep DateTime))
    (h : ∀ st ∈ steps, OptValid st.start_time ∧ OptValid st.end_time) :
    optMapM (decodeStep fromisoformat) (steps.map (encodeStep DateTime.isoformat))
      = some steps := by
  induction steps with
  | nil => rfl
  | cons st rest ih =>
    have hst := h st (List.mem_cons_self _ _)
    simp only [List.map_cons, optMapM, decodeStep_encodeStep st hst.1 hst.2,
      ih (fun s hs => h s (List.mem_cons_of_mem _ hs))]

/-- The serialised results map deserialises to itself. -/
theorem optMapM_results (rs : List (String × PyDict)) :
    optMapM (fun kv : String × Val =>
        match kv.2 with
        | .dict d => some (kv.1, d)
        | _ => Option.none)
      (rs.map (fun kv => (kv.1, Val.dict kv.2))) = some rs := by
  induction rs with
  | nil => rfl
  | cons kv rest ih =>
    simp only [List.map_cons, optMapM, ih]

/-- The persisted `current_step` (a JSON number) deserialises to itself. -/
theorem decode_current_step (n : ℕ) :
    (if ((n:ℚ).den = 1 ∧ 0 ≤ (n:ℚ)) then some ((n:ℚ)).num.toNat else Option.none)
      = some n := by
  rw [if_pos ⟨Rat.den_natCast n, by positivity⟩, Rat.num_natCast, Int.toNat_natCast]

/-- A serialised workflow deserialises to itself when its timestamps are in
range. -/
theorem decodeWorkflow_encodeWorkflow (w : Workflow DateTime) (hts : w.timesValid) :
    decodeWorkflow fromisoformat (encodeWorkflow DateTime.isoformat w) = some w := by
  obtain ⟨name, description, steps, status, cur, results, ca, ua, dd⟩ := w
  obtain ⟨hca, hua, hsteps⟩ := hts
  unfold encodeWorkflow decodeWorkflow
  simp [dictGet, optMapM_decodeStep steps hsteps, wfStatusOfString_value,
    decode_current_step, optMapM_results,
    fromisoformat_isoformat ca hca, fromisoformat_isoformat ua hua]
  cases dd <;> rfl

/-- Reading back the key just written returns the written value. -/
theorem assocGet_assocInsert {α : Type} (store : List (String × α)) (k : String) (v : α) :
    assocGet (assocInsert store k v) k = some v := by
  induction store with
  | nil => simp [assocInsert, assocGet]
  | cons kv rest ih =>
    by_cases h : kv.1 = k
    · simp [assocInsert, assocGet, h]
    · simp [assocInsert, assocGet, h, ih]

/-- C6: for every workflow with a data directory whose timestamps lie in
Python's `datetime` ranges, saving its state and loading it back by name
reproduces the saved workflow exactly — every step field, condition,
result, error, timestamp, and the top-level status, cursor, results map
and created/updated timestamps; loading a name with no persisted record
returns `None`. -/
theorem save_load_roundtrip :
    (∀ (w : Workflow DateTime) (now : DateTime) (store : WStore),
      w.data_dir.isSome = true → w.timesValid → now.Valid →
      Workflow.load_state fromisoformat w.name
          (w.save_state DateTime.isoformat now store).2
        = some (w.save_state DateTime.isoformat now store).1) ∧
    (∀ (name : String) (store : WStore), assocGet store name = Option.none →
      Workflow.load_state fromisoformat name store = Option.none) := by
  constructor
  · intro w now store hdd hts hnow
    obtain ⟨p, hp⟩ := Option.isSome_iff_exists.mp hdd
    unfold Workflow.save_state
    simp only [hp]
    unfold Workflow.load_state
    rw [assocGet_assocInsert]
    exact decodeWorkflow_encodeWorkflow _ ⟨hts.1, hnow, hts.2.2⟩
  · intro name store h
    unfold Workflow.load_state
    rw [h]

/-- C6 at the populated demo workflow and at an absent record. -/
theorem save_load_roundtrip_witness :
    Workflow.load_state fromisoformat wfDemo.name
        (wfDemo.save_state DateTime.isoformat dtB []).2
      = some (wfDemo.save_state DateTime.isoformat dtB []).1 ∧
    Workflow.load_state fromisoformat "absent" [] = Option.none :=
  ⟨save_load_roundtrip.1 wfDemo dtB [] (by decide) (by decide) (by decide),
   save_load_roundtrip.2 "absent" [] rfl⟩
